import Mathlib

/-!
# TTL phantom injector: packet pipeline and lifecycle

A shallow embedding of `windows/runner/ttl_phantom_injector.cpp`.

* Memory is a list of bytes (`List Nat`, every element below 256 for a
  well-formed buffer, `IsBytes`).  A pointer into a buffer is the list that
  starts at the pointed byte (`List.drop`).
* The target is little-endian Windows: a native 16/32-bit load or store of a
  struct field is little-endian (`load16`, `store16`, `load32`, `store32`),
  and `htons`/`ntohs` swap the two bytes of a 16-bit value.
* `uint32_t` arithmetic is `Nat` arithmetic reduced modulo `2^32`.
* Loops are structural recursions on a fuel argument that is at least the
  number of iterations the C loop can make.
-/

namespace TtlPhantom

/-! ## Bytes and native memory access -/

/-- Every element of the buffer is a byte. -/
def IsBytes (buf : List Nat) : Prop := ∀ b ∈ buf, b < 256

instance (buf : List Nat) : Decidable (IsBytes buf) := by
  unfold IsBytes; infer_instance

/-- Read of `buf[i]`. -/
def rd (buf : List Nat) (i : Nat) : Nat := buf.getD i 0

/-- Store of a `uint8_t` at `off`. -/
def store8 (buf : List Nat) (off v : Nat) : List Nat := buf.set off (v % 256)

/-- Native (little-endian) load of a `uint16_t` field at `off`. -/
def load16 (buf : List Nat) (off : Nat) : Nat := rd buf off + 256 * rd buf (off + 1)

/-- Native (little-endian) store of a `uint16_t` field at `off`. -/
def store16 (buf : List Nat) (off v : Nat) : List Nat :=
  (buf.set off (v % 256)).set (off + 1) (v / 256 % 256)

/-- Native (little-endian) load of a `uint32_t` field at `off`. -/
def load32 (buf : List Nat) (off : Nat) : Nat :=
  rd buf off + 256 * rd buf (off + 1) + 65536 * rd buf (off + 2) + 16777216 * rd buf (off + 3)

/-- Native (little-endian) store of a `uint32_t` field at `off`. -/
def store32 (buf : List Nat) (off v : Nat) : List Nat :=
  (((buf.set off (v % 256)).set (off + 1) (v / 256 % 256)).set (off + 2)
    (v / 65536 % 256)).set (off + 3) (v / 16777216 % 256)

/-- Winsock `htons` on a little-endian host: swap the two bytes of a 16-bit value. -/
def htons (x : Nat) : Nat := (x % 256) * 256 + (x / 256) % 256

/-- Winsock `ntohs` on a little-endian host: the same byte swap. -/
def ntohs (x : Nat) : Nat := htons x

/-- Copy of `n` bytes of `src` to `dst + off` (`std::memcpy`). -/
def memcpy (dst : List Nat) (off : Nat) (src : List Nat) : Nat → List Nat
  | 0 => dst
  | n + 1 => (memcpy dst off src n).set (off + n) (rd src n)

/-! ## Header layout (`#pragma pack(push, 1)`) -/

/-- Value of `sizeof(Ipv4Header)`. -/
def sizeofIpv4Header : Nat := 20
/-- Value of `sizeof(TcpHeader)`. -/
def sizeofTcpHeader : Nat := 20

/-- Offset of `Ipv4Header::versionIhl`. -/
def ipVersionIhl : Nat := 0
/-- Offset of `Ipv4Header::totalLength`. -/
def ipTotalLength : Nat := 2
/-- Offset of `Ipv4Header::ttl`. -/
def ipTtl : Nat := 8
/-- Offset of `Ipv4Header::checksum`. -/
def ipChecksum : Nat := 10
/-- Offset of `Ipv4Header::srcAddr`. -/
def ipSrcAddr : Nat := 12
/-- Offset of `Ipv4Header::dstAddr`. -/
def ipDstAddr : Nat := 16

/-- Offset of `TcpHeader::srcPort`. -/
def tcpSrcPort : Nat := 0
/-- Offset of `TcpHeader::dstPort`. -/
def tcpDstPort : Nat := 2
/-- Offset of `TcpHeader::seqNum`. -/
def tcpSeqNum : Nat := 4
/-- Offset of `TcpHeader::ackNum`. -/
def tcpAckNum : Nat := 8
/-- Offset of `TcpHeader::dataOffsetAndFlags`. -/
def tcpDataOffsetAndFlags : Nat := 12
/-- Offset of `TcpHeader::checksum`. -/
def tcpChecksum : Nat := 16

/-- The constant `kDecoyTtl`. -/
def kDecoyTtl : Nat := 5
/-- The constant `IPPROTO_TCP`. -/
def IPPROTO_TCP : Nat := 6

/-! ## Checksum primitives -/

/-- The `while (sum >> 16)` loop of `fold_checksum`, on a `uint32_t`. -/
def fold_loop : Nat → Nat → Nat
  | 0, sum => sum
  | fuel + 1, sum =>
    if sum >>> 16 ≠ 0 then fold_loop fuel (((sum &&& 0xFFFF) + (sum >>> 16)) % 2 ^ 32)
    else sum

/-- Source `fold_checksum`: fold the carries, then `static_cast<uint16_t>(~sum)`.
A 32-bit sum needs at most two iterations (`fold_loop_exits`). -/
def fold_checksum (sum : Nat) : Nat :=
  (0xFFFFFFFF - fold_loop 32 sum) % 2 ^ 16

/-- The loop `for (i = 0; i + 1 < len; i += 2) sum += (data[i] << 8) | data[i + 1];`
shared by both checksum functions, started at index `i` with accumulator `sum`. -/
def sum_words : Nat → List Nat → Nat → Nat → Nat → Nat
  | 0, _, _, _, sum => sum
  | fuel + 1, data, len, i, sum =>
    if i + 1 < len then
      sum_words fuel data len (i + 2) ((sum + ((rd data i <<< 8) ||| rd data (i + 1))) % 2 ^ 32)
    else sum

/-- The odd-length tail `if (len & 1) sum += data[len - 1] << 8;`. -/
def add_odd_tail (data : List Nat) (len sum : Nat) : Nat :=
  if len &&& 1 ≠ 0 then (sum + (rd data (len - 1) <<< 8)) % 2 ^ 32 else sum

/-- Source `compute_ipv4_checksum(ip, headerLen)`. -/
def compute_ipv4_checksum (ip : List Nat) (headerLen : Nat) : Nat :=
  let sum := 0
  let sum := sum_words headerLen ip headerLen 0 sum
  let sum := add_odd_tail ip headerLen sum
  fold_checksum sum

/-- Source `compute_tcp_checksum(ip, tcp, payload, payloadLen, tcpHeaderLen)`.  The
source never reads through `payload`: it walks `tcpHeaderLen + payloadLen`
bytes from `tcp`. -/
def compute_tcp_checksum (ip tcp _payload : List Nat) (payloadLen tcpHeaderLen : Nat) : Nat :=
  let srcAddr := load32 ip ipSrcAddr
  let dstAddr := load32 ip ipDstAddr
  let sum := 0
  let sum := (sum + ((srcAddr >>> 16) &&& 0xFFFF)) % 2 ^ 32
  let sum := (sum + (srcAddr &&& 0xFFFF)) % 2 ^ 32
  let sum := (sum + ((dstAddr >>> 16) &&& 0xFFFF)) % 2 ^ 32
  let sum := (sum + (dstAddr &&& 0xFFFF)) % 2 ^ 32
  let sum := (sum + htons IPPROTO_TCP) % 2 ^ 32
  let sum := (sum + htons ((tcpHeaderLen + payloadLen) % 2 ^ 16)) % 2 ^ 32
  let totalLen := tcpHeaderLen + payloadLen
  let sum := sum_words totalLen tcp totalLen 0 sum
  let sum := add_odd_tail tcp totalLen sum
  fold_checksum sum

/-! ## Packet parser -/

/-- Source `parse_tcp_packet(packet, length, ip, tcp, ipHeaderLen, tcpHeaderLen)`:
`none` for `false`, `some (ipHeaderLen, tcpHeaderLen)` for `true`; on success
`ip = packet` and `tcp = packet + ipHeaderLen`. -/
def parse_tcp_packet (packet : List Nat) (length : Nat) : Option (Nat × Nat) :=
  if length < sizeofIpv4Header then none
  else if (rd packet ipVersionIhl >>> 4) ≠ 4 then none
  else
    let ipHeaderLen := (rd packet ipVersionIhl &&& 0x0F) * 4
    if ipHeaderLen < sizeofIpv4Header ∨ length < ipHeaderLen + sizeofTcpHeader then none
    else
      let tcp := packet.drop ipHeaderLen
      let tcpHeaderLen := ((ntohs (load16 tcp tcpDataOffsetAndFlags) >>> 12) &&& 0x0F) * 4
      if tcpHeaderLen < sizeofTcpHeader then none
      else if length < ipHeaderLen + tcpHeaderLen then none
      else some (ipHeaderLen, tcpHeaderLen)

/-! ## Decoy builder -/

/-- Library `std::uniform_int_distribution<T>(a, b)` applied to the generator, whose
outcome is `draw`: the result is `draw` itself when it lies in `[a, b]` and is reduced
into the range otherwise, so the result is in `[a, b]` for every outcome and every
value of the range is a possible result. -/
def uniform_int_distribution (a b draw : Nat) : Nat :=
  if a ≤ draw ∧ draw ≤ b then draw else a + draw % (b - a + 1)

/-- The outcomes of the `std::mt19937` that `build_decoy` consumes, in the order it
consumes them: one for the payload size (`uniform_int_distribution<int>(16, 32)`), one
for the sequence number (`uniform_int_distribution<uint32_t>`), and one per payload byte
(`uniform_int_distribution<int>(0, 255)`). -/
structure RngDraws where
  junkSize : Nat
  seqNum : Nat
  junk : List Nat
deriving DecidableEq

/-- The outcomes that are already values of the three distributions. -/
def RngDraws.InRange (rng : RngDraws) : Prop :=
  16 ≤ rng.junkSize ∧ rng.junkSize ≤ 32 ∧ rng.seqNum < 2 ^ 32 ∧ IsBytes rng.junk

instance (rng : RngDraws) : Decidable rng.InRange := by
  unfold RngDraws.InRange; infer_instance

/-- The loop `for (i = 0; i < junkSize; ++i) payload[i] =
static_cast<uint8_t>(std::uniform_int_distribution<int>(0, 255)(rng));` with
`payload = buffer + off`. -/
def fill_junk (buf : List Nat) (off : Nat) (junk : List Nat) : Nat → List Nat
  | 0 => buf
  | n + 1 =>
    (fill_junk buf off junk n).set (off + n) (uniform_int_distribution 0 255 (rd junk n) % 256)

/-- Source `build_decoy(ip, tcp, ipHeaderLen, tcpHeaderLen, rng)`; in the buffer
`outIp` is offset `0`, `outTcp` is offset `ipHeaderLen` and `payload` is offset
`ipHeaderLen + tcpHeaderLen`. -/
def build_decoy (ip tcp : List Nat) (ipHeaderLen tcpHeaderLen : Nat) (rng : RngDraws) :
    List Nat :=
  let payloadSizeDist := uniform_int_distribution 16 32
  let junkSize := payloadSizeDist rng.junkSize
  let totalSize := ipHeaderLen + tcpHeaderLen + junkSize
  let buffer := List.replicate totalSize 0
  let buffer := memcpy buffer 0 ip ipHeaderLen
  let buffer := memcpy buffer ipHeaderLen tcp tcpHeaderLen
  let buffer := store16 buffer ipTotalLength (htons (totalSize % 2 ^ 16))
  let buffer := store8 buffer ipTtl kDecoyTtl
  let buffer := store16 buffer ipChecksum 0
  let flags := ntohs (load16 buffer (ipHeaderLen + tcpDataOffsetAndFlags))
  let flags := flags &&& 0xF000
  let flags := flags ||| 0x0002
  let buffer := store16 buffer (ipHeaderLen + tcpDataOffsetAndFlags) (htons flags)
  let buffer := store32 buffer (ipHeaderLen + tcpAckNum) 0
  let buffer := store32 buffer (ipHeaderLen + tcpSeqNum)
    (uniform_int_distribution 0 0xFFFFFFFF rng.seqNum)
  let buffer := store16 buffer (ipHeaderLen + tcpChecksum) 0
  let buffer := fill_junk buffer (ipHeaderLen + tcpHeaderLen) rng.junk junkSize
  let buffer := store16 buffer ipChecksum (compute_ipv4_checksum buffer ipHeaderLen)
  let buffer := store16 buffer (ipHeaderLen + tcpChecksum)
    (compute_tcp_checksum buffer (buffer.drop ipHeaderLen)
      (buffer.drop (ipHeaderLen + tcpHeaderLen)) junkSize tcpHeaderLen)
  buffer

/-- The big-endian 16-bit word at bytes `off`, `off + 1` of a buffer. -/
def beWord (buf : List Nat) (off : Nat) : Nat := rd buf off * 256 + rd buf (off + 1)

/-- Sum of the `n` consecutive big-endian 16-bit words that start at byte `i`. -/
def wsum (data : List Nat) : Nat → Nat → Nat
  | _, 0 => 0
  | i, n + 1 => beWord data i + wsum data (i + 2) n

/-- The accumulator of `compute_tcp_checksum` after its six pseudo-header additions,
for a segment of `segLen = tcpHeaderLen + payloadLen` bytes. -/
def pseudo_header_sum (ip : List Nat) (segLen : Nat) : Nat :=
  ((((((0 + ((load32 ip ipSrcAddr >>> 16) &&& 0xFFFF)) % 2 ^ 32
    + (load32 ip ipSrcAddr &&& 0xFFFF)) % 2 ^ 32
    + ((load32 ip ipDstAddr >>> 16) &&& 0xFFFF)) % 2 ^ 32
    + (load32 ip ipDstAddr &&& 0xFFFF)) % 2 ^ 32
    + htons IPPROTO_TCP) % 2 ^ 32
    + htons (segLen % 2 ^ 16)) % 2 ^ 32

/-- The one's-complement sum RFC 793 prescribes for a finished packet: the pseudo-header
(source address, destination address, zero byte and protocol 6, TCP segment length) and
the TCP segment, all as big-endian 16-bit words, an odd last byte padded with zero. -/
def tcp_wire_sum (pkt : List Nat) (ipHeaderLen : Nat) : Nat :=
  beWord pkt 12 + beWord pkt 14 + beWord pkt 16 + beWord pkt 18 + 6 +
    (pkt.length - ipHeaderLen) + wsum pkt ipHeaderLen ((pkt.length - ipHeaderLen) / 2) +
    (if (pkt.length - ipHeaderLen) % 2 = 1 then rd pkt (pkt.length - 1) * 256 else 0)

/-! ## Session tracker -/

/-- Source `SessionKey`: the 4-tuple as loaded from the packet; `operator==` compares the four
fields. -/
structure SessionKey where
  src : Nat
  dst : Nat
  srcPort : Nat
  dstPort : Nat
deriving DecidableEq

/-- Call `g_sessions.insert(key)` on the `std::unordered_set`, kept as a list without
duplicates: the new set and the `inserted` flag. -/
def session_insert (sessions : List SessionKey) (key : SessionKey) :
    List SessionKey × Bool :=
  if key ∈ sessions then (sessions, false) else (key :: sessions, true)

/-- Call `g_sessions.erase(key)`. -/
def session_erase (sessions : List SessionKey) (key : SessionKey) : List SessionKey :=
  sessions.filter (fun k => k ≠ key)

/-- The test `fin || rst` of `remove_session_if_done` on the host-order flags word. -/
def session_done (flags : Nat) : Bool :=
  let fin := (flags &&& 0x0001) ≠ 0
  let rst := (flags &&& 0x0004) ≠ 0
  decide (fin ∨ rst)

/-- Source `remove_session_if_done(tcp, key)` on the session set. -/
def remove_session_if_done (tcp : List Nat) (key : SessionKey)
    (sessions : List SessionKey) : List SessionKey :=
  let flags := ntohs (load16 tcp tcpDataOffsetAndFlags)
  if session_done flags then session_erase sessions key else sessions

/-- The tracker part of one loop iteration (lines 339-353) for a parsed packet given
as its key and its host-order flags word: insert, then erase on FIN or RST.  Returns the
new set and `isNewSession`. -/
def tracker_step (sessions : List SessionKey) (key : SessionKey) (flags : Nat) :
    List SessionKey × Bool :=
  let r := session_insert sessions key
  (if session_done flags then session_erase r.1 key else r.1, r.2)

/-- The tracker run over a sequence of parsed packets: the final set and the
`isNewSession` results in order. -/
def tracker_run : List SessionKey → List (SessionKey × Nat) → List SessionKey × List Bool
  | sessions, [] => (sessions, [])
  | sessions, p :: rest =>
    let r := tracker_step sessions p.1 p.2
    let t := tracker_run r.1 rest
    (t.1, r.2 :: t.2)

/-! ## Capture/inject worker -/

/-- One call `g_api.send(handle, data, len, nullptr, &addr)`: the `len` bytes sent and
the address record passed. -/
structure Send where
  data : List Nat
  addr : Nat
deriving DecidableEq

/-- What one loop iteration meets: `g_api.recv` failing (with the value `g_stop.load()`
then has), or `g_api.recv` succeeding with address record `addr` and `recvLen =
data.length` bytes `data` at the start of the receive buffer; `rng` holds the draws
`build_decoy` makes if it is called in this iteration. -/
inductive RecvEvent where
  | failed (stopSet : Bool)
  | packet (addr : Nat) (data : List Nat) (rng : RngDraws)

/-- The key `SessionKey key{ip->srcAddr, ip->dstAddr, tcp->srcPort, tcp->dstPort}`. -/
def session_key (ip tcp : List Nat) : SessionKey :=
  { src := load32 ip ipSrcAddr, dst := load32 ip ipDstAddr,
    srcPort := load16 tcp tcpSrcPort, dstPort := load16 tcp tcpDstPort }

/-- The `while (!g_stop.load())` loop of `worker_loop` over the events its iterations
meet; the list ends when the loop head reads `g_stop` as true.  Returns the session set
at loop exit and the `g_api.send` calls in the order issued. -/
def worker_loop_body : List SessionKey → List RecvEvent → List SessionKey × List Send
  | sessions, [] => (sessions, [])
  | sessions, RecvEvent.failed true :: _ => (sessions, [])
  | sessions, RecvEvent.failed false :: rest => worker_loop_body sessions rest
  | sessions, RecvEvent.packet addr data rng :: rest =>
    if data.length = 0 then worker_loop_body sessions rest
    else
      match parse_tcp_packet data data.length with
      | none => worker_loop_body sessions rest
      | some (ipHeaderLen, tcpHeaderLen) =>
        let ip := data
        let tcp := data.drop ipHeaderLen
        let key := session_key ip tcp
        let r := session_insert sessions key
        let isNewSession := r.2
        let decoySend :=
          if isNewSession then [Send.mk (build_decoy ip tcp ipHeaderLen tcpHeaderLen rng) addr]
          else []
        let genuineSend := [Send.mk data addr]
        let t := worker_loop_body (remove_session_if_done tcp key r.1) rest
        (t.1, decoySend ++ genuineSend ++ t.2)

/-- The key and host-order flags word of a received packet. -/
def packet_key_flags (data : List Nat) (ipHeaderLen : Nat) : SessionKey × Nat :=
  (session_key data (data.drop ipHeaderLen),
    ntohs (load16 (data.drop ipHeaderLen) tcpDataOffsetAndFlags))

/-- An event that is a successful receive of a non-empty packet the parser accepts. -/
def RecvEvent.Accepted : RecvEvent → Prop
  | RecvEvent.failed _ => False
  | RecvEvent.packet _ data _ =>
    data.length ≠ 0 ∧ (parse_tcp_packet data data.length).isSome = true

instance (ev : RecvEvent) : Decidable ev.Accepted := by
  cases ev <;> unfold RecvEvent.Accepted <;> infer_instance

/-- The key and flags of an event's packet (with the header length the parser reports). -/
def RecvEvent.keyFlags : RecvEvent → SessionKey × Nat
  | RecvEvent.failed _ => (⟨0, 0, 0, 0⟩, 0)
  | RecvEvent.packet _ data _ =>
    packet_key_flags data ((parse_tcp_packet data data.length).getD (0, 0)).1

/-! ## Lifecycle -/

/-- Source `WinDivertApi`: for each function pointer, whether it is non-null. -/
structure WinDivertApi where
  open_ : Bool := false
  recv : Bool := false
  send : Bool := false
  shutdown : Bool := false
  close : Bool := false
deriving DecidableEq

/-- The driver library as the loader sees it: whether `LoadLibraryW(L"WinDivert.dll")`
succeeds and which of the five symbols `GetProcAddress` resolves. -/
structure Library where
  loads : Bool
  hasOpen : Bool
  hasRecv : Bool
  hasSend : Bool
  hasShutdown : Bool
  hasClose : Bool
deriving DecidableEq

/-- A driver call made by the lifecycle functions or by the worker on its way out. -/
inductive DriverCall where
  | shutdown (handle : Nat)
  | close (handle : Nat)
deriving DecidableEq

/-- The arguments a worker thread was started with. -/
structure Worker where
  ip : String
  port : Nat
deriving DecidableEq

/-- The process-wide state: `g_api`, `g_windivert_module` (non-null or not), `g_handle`
(`none` is `INVALID_HANDLE_VALUE`), `g_stop`, `g_worker` (`some` while joinable),
`g_sessions`; two records of what happened: the driver calls `shutdown` and `close`
issued and the worker threads started; where the joinable worker thread stands:
`worker_opened` is false until it has called `g_api.open` and published the result
(lines 306-311); and what the driver answers to that call: `open_result` (`none` is
`INVALID_HANDLE_VALUE`). -/
structure EngineState where
  g_api : WinDivertApi := {}
  g_windivert_module : Bool := false
  g_handle : Option Nat := none
  g_stop : Bool := false
  g_worker : Option Worker := none
  g_sessions : List SessionKey := []
  calls : List DriverCall := []
  spawned : List Worker := []
  worker_opened : Bool := false
  open_result : Option Nat := none
deriving DecidableEq

/-- Source `load_windivert()`. -/
def load_windivert (st : EngineState) (lib : Library) : Bool × EngineState :=
  if st.g_api.open_ then (true, st)
  else
    let st := if st.g_windivert_module = false then { st with g_windivert_module := lib.loads }
      else st
    if st.g_windivert_module = false then (false, st)
    else
      let st := { st with g_api :=
        { open_ := lib.hasOpen, recv := lib.hasRecv, send := lib.hasSend,
          shutdown := lib.hasShutdown, close := lib.hasClose } }
      let ok := st.g_api.open_ && st.g_api.recv && st.g_api.send && st.g_api.shutdown &&
        st.g_api.close
      (ok, st)

/-- The worker publishing the result of `g_api.open` (lines 306-316): `none` is a failed
open, after which the worker sets `g_stop` and returns. -/
def worker_publish_handle (st : EngineState) (handle : Option Nat) : EngineState :=
  match handle with
  | none => { st with g_handle := none, g_stop := true }
  | some h => { st with g_handle := some h }

/-- The run of the worker thread to its end while `stop_ttl_phantom_injector` joins it,
`g_stop` being set.  A worker that has not yet opened calls `g_api.open` and publishes
the result now (lines 306-311); with a failed open it sets `g_stop` and returns (lines
312-316), and a worker whose open had failed earlier has returned already.  A worker
with an open handle, just opened or met in its loop, finds `g_stop` set at the loop head
(line 321) or after the `recv` that `shutdown` failed (line 325), calls
`g_api.close(handle)`, resets `g_handle` and clears `g_sessions` (lines 356-361). -/
def worker_exit (st : EngineState) : EngineState :=
  let st := if st.worker_opened then st
    else { worker_publish_handle st st.open_result with worker_opened := true }
  match st.g_handle with
  | none => st
  | some h => { st with calls := st.calls ++ [DriverCall.close h], g_handle := none,
                        g_sessions := [] }

/-- Source `stop_ttl_phantom_injector()`; `g_worker.join()` returns once the worker has run to
its end. -/
def stop_ttl_phantom_injector (st : EngineState) : EngineState :=
  let st := { st with g_stop := true }
  let handle := st.g_handle
  let st := match handle with
    | some h => if st.g_api.shutdown then { st with calls := st.calls ++ [DriverCall.shutdown h] }
                else st
    | none => st
  let st := if st.g_worker.isSome then { worker_exit st with g_worker := none } else st
  let st := match st.g_handle with
    | some h => if st.g_api.close then { st with calls := st.calls ++ [DriverCall.close h] }
                else st
    | none => st
  { st with g_handle := none, g_sessions := [] }

/-- Source `start_ttl_phantom_injector(server_ip, server_port)`; `none` is a null `server_ip`. -/
def start_ttl_phantom_injector (st : EngineState) (server_ip : Option String)
    (server_port : Nat) (lib : Library) : Bool × EngineState :=
  match server_ip with
  | none => (false, st)
  | some ip =>
    if ip = "" ∨ server_port = 0 then (false, st)
    else
      let st := stop_ttl_phantom_injector st
      let r := load_windivert st lib
      if r.1 = false then (false, r.2)
      else
        let st := { r.2 with g_stop := false }
        let st := { st with g_worker := some ⟨ip, server_port⟩,
                            spawned := st.spawned ++ [⟨ip, server_port⟩],
                            worker_opened := false }
        (true, st)

/-! ## Sample data -/

/-- A 40-byte segment 10.1.2.3:54321 -> 10.0.0.1:443 with the given flags byte and no
payload. -/
def samplePacket (flags : Nat) : List Nat :=
  [0x45, 0, 0, 0x28, 0, 0, 0x40, 0, 0x40, 6, 0, 0, 10, 1, 2, 3, 10, 0, 0, 1,
   0xd4, 0x31, 0x01, 0xbb, 0, 0, 0, 1, 0, 0, 0, 0, 0x50, flags, 0xff, 0xff, 0, 0, 0, 0]

/-- A 50-byte segment on the same flow: both headers and ten payload bytes, total-length
field 50. -/
def payloadPacket : List Nat :=
  [0x45, 0, 0, 0x32, 0, 0, 0x40, 0, 0x40, 6, 0, 0, 10, 1, 2, 3, 10, 0, 0, 1,
   0xd4, 0x31, 0x01, 0xbb, 0, 0, 0, 1, 0, 0, 0, 0, 0x50, 0x18, 0xff, 0xff, 0, 0, 0, 0,
   1, 2, 3, 4, 5, 6, 7, 8, 9, 10]

/-- Draws with the smallest payload size. -/
def sampleRng : RngDraws :=
  { junkSize := 16, seqNum := 0x01020304,
    junk := [1, 2, 3, 4, 5, 6, 7, 8, 9, 10, 11, 12, 13, 14, 15, 16] }

/-- A library that exports `WinDivertOpen`, `WinDivertRecv`, `WinDivertSend` and
`WinDivertClose` but not `WinDivertShutdown`. -/
def libNoShutdown : Library :=
  { loads := true, hasOpen := true, hasRecv := true, hasSend := true,
    hasShutdown := false, hasClose := true }

/-- A library that loads and exports all five entry points. -/
def libFull : Library :=
  { loads := true, hasOpen := true, hasRecv := true, hasSend := true,
    hasShutdown := true, hasClose := true }

/-- What a live worker thread has done to the shared state by some moment at which it
has run (lines 306-354): called `g_api.open` and published the result if it had not yet,
and, with an open handle, run loop iterations over the events `evs`, which insert into
and erase from `g_sessions`.  With a failed open it has set `g_stop` and returned. -/
def worker_progress (st : EngineState) (evs : List RecvEvent) : EngineState :=
  let st := if st.worker_opened then st
    else { worker_publish_handle st st.open_result with worker_opened := true }
  match st.g_handle with
  | none => st
  | some _ => { st with g_sessions := (worker_loop_body st.g_sessions evs).1 }

/-- The state `stop_ttl_phantom_injector` is to leave: stop flag set, handle at the
invalid sentinel, session set empty, worker not joinable. -/
def Stopped (st : EngineState) : Prop :=
  st.g_stop = true ∧ st.g_handle = none ∧ st.g_sessions = [] ∧ st.g_worker = none

instance (st : EngineState) : Decidable (Stopped st) := by
  unfold Stopped; infer_instance

/-- The worker started by a `start_ttl_phantom_injector` that returned `r`, up to the
next lifecycle call: the driver will answer its `g_api.open` with `handle`; with
`progress = none` the thread has not run yet when the next call comes, with
`progress = some evs` it has opened and met the events `evs`.  A start that returned
false started no worker. -/
def after_start (r : Bool × EngineState) (handle : Option Nat)
    (progress : Option (List RecvEvent)) : EngineState :=
  if r.1 then
    match progress with
    | none => { r.2 with open_result := handle }
    | some evs => worker_progress { r.2 with open_result := handle } evs
  else r.2

/-- The lifecycle sequence stop; stop; start; start; stop from state `st`, where each
started worker gets the given answer to its open call and makes the given progress
before the next call.  Returns the states at the three explicit stop returns. -/
def stop_stop_start_start_stop (st : EngineState)
    (ip1 : Option String) (port1 : Nat) (lib1 : Library) (h1 : Option Nat)
    (p1 : Option (List RecvEvent))
    (ip2 : Option String) (port2 : Nat) (lib2 : Library) (h2 : Option Nat)
    (p2 : Option (List RecvEvent)) : EngineState × EngineState × EngineState :=
  let s1 := stop_ttl_phantom_injector st
  let s2 := stop_ttl_phantom_injector s1
  let s3 := after_start (start_ttl_phantom_injector s2 ip1 port1 lib1) h1 p1
  let s4 := after_start (start_ttl_phantom_injector s3 ip2 port2 lib2) h2 p2
  let s5 := stop_ttl_phantom_injector s4
  (s1, s2, s5)

/-- The flags word of the most recent packet with key `k` in a sequence, if any. -/
def last_flags (k : SessionKey) : List (SessionKey × Nat) → Option Nat
  | [] => none
  | p :: rest =>
    match last_flags k rest with
    | some f => some f
    | none => if p.1 = k then some p.2 else none

/-- Sample flow key A. -/
def keyA : SessionKey := ⟨0x0302010a, 0x0100000a, 0x31d4, 0xbb01⟩
/-- Sample flow key B. -/
def keyB : SessionKey := ⟨0x0302010a, 0x0100000a, 0x32d4, 0xbb01⟩

/-! ## Memory lemmas -/

theorem rd_set (buf : List Nat) (i j v : Nat) :
    rd (buf.set i v) j = if i = j ∧ i < buf.length then v else rd buf j := by
  unfold rd
  rw [List.getD_eq_getElem?_getD, List.getD_eq_getElem?_getD, List.getElem?_set]
  by_cases h : i = j
  · subst h
    by_cases hl : i < buf.length
    · simp [hl]
    · simp [hl, List.getElem?_eq_none (Nat.le_of_not_lt hl)]
  · simp [h]

theorem rd_of_length_le (buf : List Nat) (i : Nat) (h : buf.length ≤ i) : rd buf i = 0 := by
  unfold rd
  rw [List.getD_eq_getElem?_getD, List.getElem?_eq_none h]; rfl

theorem rd_drop (buf : List Nat) (n i : Nat) : rd (buf.drop n) i = rd buf (n + i) := by
  unfold rd
  rw [List.getD_eq_getElem?_getD, List.getD_eq_getElem?_getD, List.getElem?_drop]

theorem rd_take (buf : List Nat) (n i : Nat) :
    rd (buf.take n) i = if i < n then rd buf i else 0 := by
  unfold rd
  rw [List.getD_eq_getElem?_getD, List.getD_eq_getElem?_getD, List.getElem?_take]
  split_ifs <;> rfl

theorem rd_replicate_zero (n i : Nat) : rd (List.replicate n 0) i = 0 := by
  unfold rd
  rw [List.getD_eq_getElem?_getD, List.getElem?_replicate]
  split_ifs <;> rfl

theorem rd_lt_of_isBytes {buf : List Nat} (h : IsBytes buf) (i : Nat) : rd buf i < 256 := by
  unfold rd
  rw [List.getD_eq_getElem?_getD]
  by_cases hi : i < buf.length
  · rw [List.getElem?_eq_getElem hi]
    exact h _ (List.getElem_mem hi)
  · rw [List.getElem?_eq_none (Nat.le_of_not_lt hi)]
    exact Nat.zero_lt_succ _

theorem isBytes_set {buf : List Nat} (h : IsBytes buf) (i v : Nat) (hv : v < 256) :
    IsBytes (buf.set i v) := by
  intro b hb
  rcases List.mem_or_eq_of_mem_set hb with hb | hb
  · exact h b hb
  · exact hb ▸ hv

@[simp] theorem length_store8 (buf : List Nat) (off v : Nat) :
    (store8 buf off v).length = buf.length := by
  simp [store8]

@[simp] theorem length_store16 (buf : List Nat) (off v : Nat) :
    (store16 buf off v).length = buf.length := by
  simp [store16]

@[simp] theorem length_store32 (buf : List Nat) (off v : Nat) :
    (store32 buf off v).length = buf.length := by
  simp [store32]

@[simp] theorem length_memcpy (dst : List Nat) (off : Nat) (src : List Nat) (n : Nat) :
    (memcpy dst off src n).length = dst.length := by
  induction n with
  | zero => rfl
  | succ n ih => simp [memcpy, ih]

@[simp] theorem length_fill_junk (buf : List Nat) (off : Nat) (junk : List Nat) (n : Nat) :
    (fill_junk buf off junk n).length = buf.length := by
  induction n with
  | zero => rfl
  | succ n ih => simp [fill_junk, ih]

theorem rd_store8 (buf : List Nat) (off v j : Nat) :
    rd (store8 buf off v) j = if off = j ∧ off < buf.length then v % 256 else rd buf j := by
  simp [store8, rd_set]

theorem rd_store16 (buf : List Nat) (off v j : Nat) :
    rd (store16 buf off v) j =
      if off + 1 = j ∧ off + 1 < buf.length then v / 256 % 256
      else if off = j ∧ off < buf.length then v % 256 else rd buf j := by
  simp [store16, rd_set]

theorem rd_store32 (buf : List Nat) (off v j : Nat) :
    rd (store32 buf off v) j =
      if off + 3 = j ∧ off + 3 < buf.length then v / 16777216 % 256
      else if off + 2 = j ∧ off + 2 < buf.length then v / 65536 % 256
      else if off + 1 = j ∧ off + 1 < buf.length then v / 256 % 256
      else if off = j ∧ off < buf.length then v % 256 else rd buf j := by
  simp [store32, rd_set]

theorem rd_memcpy (dst : List Nat) (off : Nat) (src : List Nat) (n j : Nat) :
    rd (memcpy dst off src n) j =
      if off ≤ j ∧ j < off + n ∧ j < dst.length then rd src (j - off) else rd dst j := by
  induction n with
  | zero =>
    have e : ¬ (off ≤ j ∧ j < off + 0 ∧ j < dst.length) := by omega
    simp only [memcpy, if_neg e]
  | succ n ih =>
    simp only [memcpy, rd_set, ih, length_memcpy]
    by_cases h1 : off + n = j
    · subst h1
      by_cases h2 : off + n < dst.length
      · simp [h2]
      · simp [h2]
    · have e : (off ≤ j ∧ j < off + (n + 1) ∧ j < dst.length) ↔
          (off ≤ j ∧ j < off + n ∧ j < dst.length) := by omega
      simp [h1, e]

theorem rd_fill_junk (buf : List Nat) (off : Nat) (junk : List Nat) (n j : Nat) :
    rd (fill_junk buf off junk n) j =
      if off ≤ j ∧ j < off + n ∧ j < buf.length
      then uniform_int_distribution 0 255 (rd junk (j - off)) % 256 else rd buf j := by
  induction n with
  | zero =>
    have e : ¬ (off ≤ j ∧ j < off + 0 ∧ j < buf.length) := by omega
    simp only [fill_junk, if_neg e]
  | succ n ih =>
    simp only [fill_junk, rd_set, ih, length_fill_junk]
    by_cases h1 : off + n = j
    · subst h1
      by_cases h2 : off + n < buf.length
      · simp [h2]
      · simp [h2]
    · have e : (off ≤ j ∧ j < off + (n + 1) ∧ j < buf.length) ↔
          (off ≤ j ∧ j < off + n ∧ j < buf.length) := by omega
      simp [h1, e]

/-! ## Bit operations as arithmetic -/

theorem shl8_or (a b : Nat) (hb : b < 256) : (a <<< 8) ||| b = a * 256 + b := by
  have h := Nat.mul_add_lt_is_or (i := 8) (b := b) (by simpa using hb) a
  rw [Nat.shiftLeft_eq, Nat.mul_comm a (2 ^ 8), ← h]

theorem shl8 (a : Nat) : a <<< 8 = a * 256 := by
  rw [Nat.shiftLeft_eq]

theorem shr4 (x : Nat) : x >>> 4 = x / 16 := Nat.shiftRight_eq_div_pow x 4
theorem shr12 (x : Nat) : x >>> 12 = x / 4096 := Nat.shiftRight_eq_div_pow x 12
theorem shr16 (x : Nat) : x >>> 16 = x / 65536 := Nat.shiftRight_eq_div_pow x 16

theorem and_0F (x : Nat) : x &&& 0x0F = x % 16 := Nat.and_pow_two_sub_one_eq_mod x 4
theorem and_FFFF (x : Nat) : x &&& 0xFFFF = x % 65536 := Nat.and_pow_two_sub_one_eq_mod x 16
theorem and_1 (x : Nat) : x &&& 1 = x % 2 := Nat.and_pow_two_sub_one_eq_mod x 1

theorem and_F000_of_lt (r : Nat) (hr : r < 4096) : r &&& 0xF000 = 0 := by
  have h : r = r &&& 0xFFF := by
    rw [show (0xFFF : Nat) = 2 ^ 12 - 1 by norm_num, Nat.and_pow_two_sub_one_eq_mod]
    exact (Nat.mod_eq_of_lt hr).symm
  rw [h, Nat.and_assoc, show (0xFFF : Nat) &&& 0xF000 = 0 by decide, Nat.and_zero]

/-- The flag rewrite `(flags & 0xF000) | 0x0002` keeps the top nibble and sets the
low twelve bits to `2`. -/
theorem syn_flags (x : Nat) (hx : x < 65536) :
    (x &&& 0xF000) ||| 0x0002 = x / 4096 * 4096 + 2 := by
  have hq : x / 4096 < 16 := by omega
  have hx' : x = 2 ^ 12 * (x / 4096) ||| (x % 4096) := by
    rw [← Nat.mul_add_lt_is_or (by omega)]
    omega
  have h1 : x &&& 0xF000 = x / 4096 * 4096 := by
    conv_lhs => rw [hx']
    rw [Nat.and_distrib_right, and_F000_of_lt _ (Nat.mod_lt _ (by norm_num)), Nat.or_zero]
    generalize x / 4096 = q at hq
    interval_cases q <;> rfl
  rw [h1, Nat.mul_comm, ← Nat.mul_add_lt_is_or (i := 12) (by norm_num)]

/-! ## Parser -/

theorem ntohs_load16 (buf : List Nat) (off : Nat) (hb : IsBytes buf) :
    ntohs (load16 buf off) = beWord buf off := by
  have h0 := rd_lt_of_isBytes hb off
  have h1 := rd_lt_of_isBytes hb (off + 1)
  unfold ntohs htons load16 beWord
  omega

theorem isBytes_drop {buf : List Nat} (hb : IsBytes buf) (n : Nat) : IsBytes (buf.drop n) :=
  fun b h => hb b (List.mem_of_mem_drop h)

theorem isBytes_take {buf : List Nat} (hb : IsBytes buf) (n : Nat) : IsBytes (buf.take n) :=
  fun b h => hb b (List.mem_of_mem_take h)

theorem beWord_lt {buf : List Nat} (hb : IsBytes buf) (off : Nat) : beWord buf off < 65536 := by
  have h0 := rd_lt_of_isBytes hb off
  have h1 := rd_lt_of_isBytes hb (off + 1)
  unfold beWord
  omega

theorem beWord_drop (buf : List Nat) (n off : Nat) :
    beWord (buf.drop n) off = beWord buf (n + off) := by
  simp only [beWord, rd_drop, Nat.add_assoc]

/-- The parser in arithmetic form. -/
theorem parse_tcp_packet_eq (packet : List Nat) (length : Nat) (hb : IsBytes packet) :
    parse_tcp_packet packet length =
      if length < 20 ∨ rd packet 0 / 16 ≠ 4 ∨ rd packet 0 % 16 * 4 < 20 ∨
          length < rd packet 0 % 16 * 4 + 20 ∨
          beWord packet (rd packet 0 % 16 * 4 + 12) / 4096 * 4 < 20 ∨
          length < rd packet 0 % 16 * 4 + beWord packet (rd packet 0 % 16 * 4 + 12) / 4096 * 4
      then none
      else some (rd packet 0 % 16 * 4,
        beWord packet (rd packet 0 % 16 * 4 + 12) / 4096 * 4) := by
  have hw := beWord_lt hb (rd packet 0 % 16 * 4 + 12)
  have hq : beWord packet (rd packet 0 % 16 * 4 + 12) / 4096 % 16 =
      beWord packet (rd packet 0 % 16 * 4 + 12) / 4096 := by omega
  simp only [parse_tcp_packet, sizeofIpv4Header, sizeofTcpHeader, ipVersionIhl,
    tcpDataOffsetAndFlags, shr4, shr12, and_0F, ntohs_load16 _ _ (isBytes_drop hb _),
    beWord_drop, hq]
  split_ifs <;> first | rfl | (exfalso; omega)

/-- C6: `parse_tcp_packet` rejects a byte buffer exactly when the length is below 20,
or the version nibble of byte 0 is not 4, or `IHL*4 < 20`, or `length - IHL*4 < 20`,
or the TCP data offset (upper four bits of the big-endian word at `IHL*4 + 12`)
times 4 is below 20, or exceeds `length - IHL*4`; when it accepts it reports
`ipHeaderLen = IHL*4` and `tcpHeaderLen = dataOffset*4`; buffers with version 6,
with `IHL = 4` or with data offset 4 are rejected. -/
theorem parse_tcp_packet_rejects_iff (packet : List Nat) (length : Nat)
    (hb : IsBytes packet) :
    (parse_tcp_packet packet length = none ↔
      (length < 20 ∨ rd packet 0 / 16 ≠ 4 ∨ rd packet 0 % 16 * 4 < 20 ∨
        (length : Int) - ((rd packet 0 % 16 * 4 : Nat) : Int) < 20 ∨
        beWord packet (rd packet 0 % 16 * 4 + 12) / 4096 * 4 < 20 ∨
        ((beWord packet (rd packet 0 % 16 * 4 + 12) / 4096 * 4 : Nat) : Int) >
          (length : Int) - ((rd packet 0 % 16 * 4 : Nat) : Int))) ∧
    (∀ ipHeaderLen tcpHeaderLen,
      parse_tcp_packet packet length = some (ipHeaderLen, tcpHeaderLen) →
        ipHeaderLen = rd packet 0 % 16 * 4 ∧
        tcpHeaderLen = beWord packet (rd packet 0 % 16 * 4 + 12) / 4096 * 4) ∧
    (rd packet 0 / 16 = 6 → parse_tcp_packet packet length = none) ∧
    (rd packet 0 % 16 = 4 → parse_tcp_packet packet length = none) ∧
    (beWord packet (rd packet 0 % 16 * 4 + 12) / 4096 = 4 →
      parse_tcp_packet packet length = none) := by
  rw [parse_tcp_packet_eq packet length hb]
  refine ⟨?_, ?_, ?_, ?_, ?_⟩
  · split_ifs with h
    · simp only [true_iff]
      omega
    · simp only [false_iff, reduceCtorEq]
      omega
  · intro a b
    split_ifs with h
    · intro h'
      cases h'
    · intro h'
      simp only [Option.some.injEq, Prod.mk.injEq] at h'
      exact ⟨h'.1.symm, h'.2.symm⟩
  · intro h
    rw [if_pos (by omega)]
  · intro h
    rw [if_pos (by omega)]
  · intro h
    rw [if_pos (by omega)]

theorem beWord_take (buf : List Nat) (k off : Nat) (h : off + 1 < k) :
    beWord (buf.take k) off = beWord buf off := by
  simp only [beWord, rd_take, if_pos h, if_pos (show off < k by omega)]

/-- The parser reads only the first `length` bytes it is given. -/
theorem parse_tcp_packet_take (packet : List Nat) (k : Nat) (hb : IsBytes packet) :
    parse_tcp_packet (packet.take k) k = parse_tcp_packet packet k := by
  rw [parse_tcp_packet_eq _ _ hb, parse_tcp_packet_eq _ _ (isBytes_take hb k)]
  by_cases h20 : k < 20
  · rw [if_pos (Or.inl h20), if_pos (Or.inl h20)]
  · have h0 : rd (packet.take k) 0 = rd packet 0 := by
      rw [rd_take, if_pos (by omega)]
    rw [h0]
    by_cases hi : k < rd packet 0 % 16 * 4 + 20
    · rw [if_pos (Or.inr (Or.inr (Or.inr (Or.inl hi)))),
        if_pos (Or.inr (Or.inr (Or.inr (Or.inl hi))))]
    · rw [beWord_take _ _ _ (by omega)]

/-- C7, as amended: for a valid IPv4+TCP packet (version 4, `IHL >= 5`, data offset
`>= 5`, whatever its total-length field and payload) every prefix shorter than the two
headers together (`IHL*4 + dataOffset*4`) is rejected, and every prefix that holds both
headers is accepted, also when it is shorter than the declared total length. -/
theorem parse_tcp_packet_on_prefixes (packet : List Nat) (k : Nat) (hb : IsBytes packet)
    (hver : rd packet 0 / 16 = 4) (hihl : 5 ≤ rd packet 0 % 16)
    (hoff : 5 ≤ beWord packet (rd packet 0 % 16 * 4 + 12) / 4096)
    :
    (k < rd packet 0 % 16 * 4 + beWord packet (rd packet 0 % 16 * 4 + 12) / 4096 * 4 →
      parse_tcp_packet (packet.take k) k = none) ∧
    (rd packet 0 % 16 * 4 + beWord packet (rd packet 0 % 16 * 4 + 12) / 4096 * 4 ≤ k →
      k ≤ packet.length →
      parse_tcp_packet (packet.take k) k =
        some (rd packet 0 % 16 * 4,
          beWord packet (rd packet 0 % 16 * 4 + 12) / 4096 * 4)) := by
  rw [parse_tcp_packet_take _ _ hb, parse_tcp_packet_eq _ _ hb]
  constructor
  · intro hk
    rw [if_pos (by omega)]
  · intro hk _
    rw [if_neg (by omega)]

/-! ## Reads through the stores of `build_decoy` -/

theorem rd_store8_ne (buf : List Nat) (off v j : Nat) (h : j ≠ off) :
    rd (store8 buf off v) j = rd buf j := by
  rw [rd_store8, if_neg (by omega)]

theorem rd_store8_eq (buf : List Nat) (off v : Nat) (h : off < buf.length) :
    rd (store8 buf off v) off = v % 256 := by
  rw [rd_store8, if_pos ⟨rfl, h⟩]

theorem rd_store16_ne (buf : List Nat) (off v j : Nat) (h : j < off ∨ off + 2 ≤ j) :
    rd (store16 buf off v) j = rd buf j := by
  rw [rd_store16, if_neg (by omega), if_neg (by omega)]

theorem rd_store16_lo (buf : List Nat) (off v : Nat) (h : off < buf.length) :
    rd (store16 buf off v) off = v % 256 := by
  rw [rd_store16, if_neg (by omega), if_pos ⟨rfl, h⟩]

theorem rd_store16_hi (buf : List Nat) (off v : Nat) (h : off + 1 < buf.length) :
    rd (store16 buf off v) (off + 1) = v / 256 % 256 := by
  rw [rd_store16, if_pos ⟨rfl, h⟩]

theorem rd_store32_ne (buf : List Nat) (off v j : Nat) (h : j < off ∨ off + 4 ≤ j) :
    rd (store32 buf off v) j = rd buf j := by
  rw [rd_store32, if_neg (by omega), if_neg (by omega), if_neg (by omega), if_neg (by omega)]

theorem rd_store32_zero (buf : List Nat) (off j : Nat) (h : off ≤ j ∧ j < off + 4) :
    rd (store32 buf off 0) j = if j < buf.length then 0 else rd buf j := by
  rw [rd_store32]
  split_ifs <;> first | rfl | (exfalso; omega)

theorem rd_fill_junk_lt (buf : List Nat) (off : Nat) (junk : List Nat) (n j : Nat)
    (h : j < off) : rd (fill_junk buf off junk n) j = rd buf j := by
  rw [rd_fill_junk, if_neg (by omega)]

theorem rd_memcpy_in (dst : List Nat) (off : Nat) (src : List Nat) (n j : Nat)
    (h : off ≤ j ∧ j < off + n ∧ j < dst.length) :
    rd (memcpy dst off src n) j = rd src (j - off) := by
  rw [rd_memcpy, if_pos h]

theorem rd_memcpy_out (dst : List Nat) (off : Nat) (src : List Nat) (n j : Nat)
    (h : j < off ∨ off + n ≤ j) :
    rd (memcpy dst off src n) j = rd dst j := by
  rw [rd_memcpy, if_neg (by omega)]

theorem htons_bytes (x : Nat) (hx : x < 65536) :
    htons x % 256 = x / 256 ∧ htons x / 256 % 256 = x % 256 := by
  unfold htons
  have h1 : x / 256 < 256 := by omega
  have h2 : x / 256 % 256 = x / 256 := Nat.mod_eq_of_lt h1
  have h3 : x % 256 < 256 := Nat.mod_lt _ (by norm_num)
  rw [h2]
  constructor
  · rw [Nat.add_comm, Nat.add_mul_mod_self_right, Nat.mod_eq_of_lt h1]
  · rw [Nat.add_comm, Nat.add_mul_div_right _ _ (by norm_num), Nat.div_eq_of_lt h1,
      Nat.zero_add, Nat.mod_mod]

/-- The distribution keeps its contract: the result lies in `[a, b]`. -/
theorem uniform_int_distribution_range (a b draw : Nat) (hab : a ≤ b) :
    a ≤ uniform_int_distribution a b draw ∧ uniform_int_distribution a b draw ≤ b := by
  unfold uniform_int_distribution
  split_ifs with h
  · exact h
  · have hm : draw % (b - a + 1) < b - a + 1 := Nat.mod_lt _ (Nat.succ_pos _)
    omega

/-- An outcome inside the range is the result. -/
theorem uniform_int_distribution_of_mem (a b draw : Nat) (h : a ≤ draw ∧ draw ≤ b) :
    uniform_int_distribution a b draw = draw := by
  unfold uniform_int_distribution
  rw [if_pos h]

/-- What a successful parse tells about the two header lengths. -/
theorem parse_tcp_packet_some {packet : List Nat} {length ipHeaderLen tcpHeaderLen : Nat}
    (hb : IsBytes packet)
    (h : parse_tcp_packet packet length = some (ipHeaderLen, tcpHeaderLen)) :
    20 ≤ ipHeaderLen ∧ ipHeaderLen ≤ 60 ∧ 20 ≤ tcpHeaderLen ∧ tcpHeaderLen ≤ 60 ∧
    ipHeaderLen + tcpHeaderLen ≤ length ∧ ipHeaderLen % 4 = 0 ∧
    tcpHeaderLen = beWord packet (ipHeaderLen + 12) / 4096 * 4 := by
  rw [parse_tcp_packet_eq packet length hb] at h
  have hw := beWord_lt hb (rd packet 0 % 16 * 4 + 12)
  split_ifs at h with hc
  simp only [Option.some.injEq, Prod.mk.injEq] at h
  obtain ⟨h1, h2⟩ := h
  subst h1
  subst h2
  omega

/-- C1: for a packet that `parse_tcp_packet` accepts and every outcome of the random
generator, the decoy has length `ipHeaderLen + tcpHeaderLen + junkLen`, where `junkLen`
is the value the `(16, 32)` distribution returns and `16 <= junkLen <= 32`; its IPv4
total-length field, read big-endian, is that length; its TTL byte is 5; the low twelve
bits of its big-endian data-offset/flags word are `0x002`; the data-offset nibble is the
input's; and the four acknowledgement-number bytes are zero. -/
theorem build_decoy_structure (packet : List Nat) (length ipHeaderLen tcpHeaderLen : Nat)
    (rng : RngDraws) (hb : IsBytes packet)
    (hparse : parse_tcp_packet packet length = some (ipHeaderLen, tcpHeaderLen)) :
    ((build_decoy packet (packet.drop ipHeaderLen) ipHeaderLen tcpHeaderLen rng).length
        = ipHeaderLen + tcpHeaderLen + uniform_int_distribution 16 32 rng.junkSize ∧
      16 ≤ uniform_int_distribution 16 32 rng.junkSize ∧
      uniform_int_distribution 16 32 rng.junkSize ≤ 32) ∧
    beWord (build_decoy packet (packet.drop ipHeaderLen) ipHeaderLen tcpHeaderLen rng)
        ipTotalLength
      = (build_decoy packet (packet.drop ipHeaderLen) ipHeaderLen tcpHeaderLen rng).length ∧
    rd (build_decoy packet (packet.drop ipHeaderLen) ipHeaderLen tcpHeaderLen rng) ipTtl
      = 5 ∧
    beWord (build_decoy packet (packet.drop ipHeaderLen) ipHeaderLen tcpHeaderLen rng)
        (ipHeaderLen + tcpDataOffsetAndFlags) % 4096 = 0x002 ∧
    beWord (build_decoy packet (packet.drop ipHeaderLen) ipHeaderLen tcpHeaderLen rng)
        (ipHeaderLen + tcpDataOffsetAndFlags) / 4096
      = beWord packet (ipHeaderLen + tcpDataOffsetAndFlags) / 4096 ∧
    load32 (build_decoy packet (packet.drop ipHeaderLen) ipHeaderLen tcpHeaderLen rng)
        (ipHeaderLen + tcpAckNum) = 0 := by
  obtain ⟨h1, h2, h3, h4, h5, h6, h7⟩ := parse_tcp_packet_some hb hparse
  obtain ⟨hj1, hj2⟩ := uniform_int_distribution_range 16 32 rng.junkSize (by norm_num)
  have hlen : (build_decoy packet (packet.drop ipHeaderLen) ipHeaderLen tcpHeaderLen rng).length
      = ipHeaderLen + tcpHeaderLen + uniform_int_distribution 16 32 rng.junkSize := by
    simp [build_decoy]
  have hword : beWord (build_decoy packet (packet.drop ipHeaderLen) ipHeaderLen tcpHeaderLen rng)
      (ipHeaderLen + tcpDataOffsetAndFlags)
      = beWord packet (ipHeaderLen + 12) / 4096 * 4096 + 2 := by
    have hw : ntohs (rd packet (ipHeaderLen + 12) + 256 * rd packet (ipHeaderLen + 12 + 1))
        = beWord packet (ipHeaderLen + 12) := ntohs_load16 packet (ipHeaderLen + 12) hb
    have hlt := beWord_lt hb (ipHeaderLen + 12)
    generalize beWord packet (ipHeaderLen + 12) = X at hw hlt ⊢
    simp only [build_decoy, beWord, load16, ipTotalLength, ipTtl, ipChecksum,
      tcpDataOffsetAndFlags, tcpAckNum, tcpSeqNum, tcpChecksum, kDecoyTtl]
    simp (disch := first | omega | (simp only [length_store16, length_store8, length_store32,
        length_memcpy, length_fill_junk, List.length_replicate]; omega)) only
      [rd_store16_ne, rd_store8_ne, rd_store32_ne, rd_fill_junk_lt, rd_store16_lo,
        rd_store16_hi, rd_store8_eq, rd_memcpy_in, rd_memcpy_out, rd_drop]
    have e1 : ipHeaderLen + (ipHeaderLen + 12 - ipHeaderLen) = ipHeaderLen + 12 := by omega
    have e2 : ipHeaderLen + (ipHeaderLen + 12 + 1 - ipHeaderLen) = ipHeaderLen + 12 + 1 := by
      omega
    rw [e1, e2, hw, syn_flags _ hlt]
    obtain ⟨f1, f2⟩ := htons_bytes (X / 4096 * 4096 + 2) (by omega)
    rw [f1, f2]
    omega
  refine ⟨⟨hlen, hj1, hj2⟩, ?_, ?_, ?_, ?_, ?_⟩
  · rw [hlen]
    simp only [build_decoy, beWord, ipTotalLength, ipTtl, ipChecksum, tcpDataOffsetAndFlags,
      tcpAckNum, tcpSeqNum, tcpChecksum, kDecoyTtl]
    simp (disch := first | omega | (simp only [length_store16, length_store8, length_store32,
        length_memcpy, length_fill_junk, List.length_replicate]; omega)) only
      [rd_store16_ne, rd_store8_ne, rd_store32_ne, rd_fill_junk_lt, rd_store16_lo,
        rd_store16_hi]
    have hs : (ipHeaderLen + tcpHeaderLen + uniform_int_distribution 16 32 rng.junkSize) % 2 ^ 16
        = ipHeaderLen + tcpHeaderLen + uniform_int_distribution 16 32 rng.junkSize :=
      Nat.mod_eq_of_lt (by omega)
    rw [hs]
    obtain ⟨e1, e2⟩ := htons_bytes
      (ipHeaderLen + tcpHeaderLen + uniform_int_distribution 16 32 rng.junkSize) (by omega)
    rw [e1, e2]
    omega
  · simp only [build_decoy, beWord, ipTotalLength, ipTtl, ipChecksum, tcpDataOffsetAndFlags,
      tcpAckNum, tcpSeqNum, tcpChecksum, kDecoyTtl]
    simp (disch := first | omega | (simp only [length_store16, length_store8, length_store32,
        length_memcpy, length_fill_junk, List.length_replicate]; omega)) only
      [rd_store16_ne, rd_store8_ne, rd_store32_ne, rd_fill_junk_lt, rd_store16_lo,
        rd_store16_hi, rd_store8_eq]
  · rw [hword]
    omega
  · rw [hword, tcpDataOffsetAndFlags]
    omega
  · simp only [build_decoy, load32, ipTotalLength, ipTtl, ipChecksum, tcpDataOffsetAndFlags,
      tcpAckNum, tcpSeqNum, tcpChecksum, kDecoyTtl]
    simp (disch := first | omega | (simp only [length_store16, length_store8, length_store32,
        length_memcpy, length_fill_junk, List.length_replicate]; omega)) only
      [rd_store16_ne, rd_store8_ne, rd_store32_ne, rd_fill_junk_lt, rd_store32_zero, if_pos]

/-! ## Checksum arithmetic -/

theorem fold_loop_small (fuel s : Nat) (hs : s < 65536) : fold_loop fuel s = s := by
  cases fuel with
  | zero => rfl
  | succ n =>
    have h : s >>> 16 = 0 := by rw [shr16]; omega
    simp only [fold_loop, h, ne_eq, not_true_eq_false, if_false]

/-- The carry-folding loop on a 32-bit sum, in closed form: two rounds suffice. -/
theorem fold_loop_32 (s : Nat) (hs : s < 2 ^ 32) :
    fold_loop 32 s =
      if s < 65536 then s
      else if s % 65536 + s / 65536 < 65536 then s % 65536 + s / 65536
      else (s % 65536 + s / 65536) % 65536 + 1 := by
  by_cases h1 : s < 65536
  · rw [if_pos h1, fold_loop_small _ _ h1]
  · rw [if_neg h1]
    have hne : s >>> 16 ≠ 0 := by rw [shr16]; omega
    have hm : (s % 65536 + s / 65536) % 2 ^ 32 = s % 65536 + s / 65536 :=
      Nat.mod_eq_of_lt (by omega)
    rw [show (32 : Nat) = 31 + 1 from rfl, fold_loop, if_pos hne, and_FFFF, shr16, hm]
    by_cases h2 : s % 65536 + s / 65536 < 65536
    · rw [if_pos h2, fold_loop_small _ _ h2]
    · rw [if_neg h2]
      have hne2 : (s % 65536 + s / 65536) >>> 16 ≠ 0 := by rw [shr16]; omega
      have hd : (s % 65536 + s / 65536) / 65536 = 1 := by omega
      have hm2 : ((s % 65536 + s / 65536) % 65536 + 1) % 2 ^ 32 =
          (s % 65536 + s / 65536) % 65536 + 1 := Nat.mod_eq_of_lt (by omega)
      rw [show (31 : Nat) = 30 + 1 from rfl, fold_loop, if_pos hne2, and_FFFF, shr16, hd, hm2]
      exact fold_loop_small _ _ (by omega)

/-- The loop of `fold_checksum` leaves by its condition, not by lack of fuel. -/
theorem fold_loop_exits (s : Nat) (hs : s < 2 ^ 32) : fold_loop 32 s >>> 16 = 0 := by
  rw [fold_loop_32 s hs, shr16]
  split_ifs <;> omega

theorem fold_loop_props (s : Nat) (hs : s < 2 ^ 32) :
    fold_loop 32 s < 65536 ∧ fold_loop 32 s % 65535 = s % 65535 ∧
      (0 < s → 0 < fold_loop 32 s) ∧ fold_loop 32 s ≤ s := by
  rw [fold_loop_32 s hs]
  by_cases h1 : s < 65536
  · rw [if_pos h1]
    omega
  · rw [if_neg h1]
    have hs1 : (s % 65536 + s / 65536) % 65535 = s % 65535 := by omega
    by_cases h2 : s % 65536 + s / 65536 < 65536
    · rw [if_pos h2]
      omega
    · rw [if_neg h2]
      have hd : (s % 65536 + s / 65536) / 65536 = 1 := by omega
      have ht : s % 65536 + s / 65536 ≤ 131070 := by omega
      have hts : s % 65536 + s / 65536 ≤ s := by omega
      generalize s % 65536 + s / 65536 = t at hs1 h2 hd ht hts ⊢
      have hr : t % 65536 = t - 65536 := by omega
      have hr2 : (t - 65536 + 1) % 65535 = t % 65535 := by omega
      rw [hr, hr2, hs1]
      omega

theorem fold_checksum_eq (s : Nat) (hs : s < 2 ^ 32) :
    fold_checksum s = 65535 - fold_loop 32 s := by
  have h := (fold_loop_props s hs).1
  unfold fold_checksum
  omega

/-- Adding the folded complement of a sum to the sum gives a sum that folds to zero. -/
theorem fold_checksum_cancel (s : Nat) (hs : s + 65535 < 2 ^ 32) :
    fold_checksum (s + fold_checksum s) = 0 := by
  have hs' : s < 2 ^ 32 := by omega
  obtain ⟨p1, p2, _, p4⟩ := fold_loop_props s hs'
  rw [fold_checksum_eq s hs']
  have ht : s + (65535 - fold_loop 32 s) < 2 ^ 32 := by omega
  obtain ⟨q1, q2, q3, _⟩ := fold_loop_props _ ht
  rw [fold_checksum_eq _ ht]
  have hpos : 0 < s + (65535 - fold_loop 32 s) := by omega
  have hg := q3 hpos
  have ht0 : (s + (65535 - fold_loop 32 s)) % 65535 = 0 := by
    generalize fold_loop 32 s = f at p1 p2
    have hsd := Nat.mod_add_div s 65535
    rcases Nat.lt_or_ge f 65535 with hf | hf
    · have hf' : f = s % 65535 := by rw [← p2]; exact (Nat.mod_eq_of_lt hf).symm
      have e : s + (65535 - f) = 65535 * (s / 65535 + 1) := by omega
      rw [e, Nat.mul_mod_right]
    · have hf' : f = 65535 := by omega
      subst hf'
      simpa using p2.symm
  rw [ht0] at q2
  generalize fold_loop 32 (s + (65535 - fold_loop 32 s)) = g at q1 q2 hg ⊢
  omega

theorem beWord_le {data : List Nat} (hb : IsBytes data) (i : Nat) : beWord data i ≤ 65535 := by
  have := beWord_lt hb i
  omega

theorem wsum_le {data : List Nat} (hb : IsBytes data) (i n : Nat) :
    wsum data i n ≤ 65535 * n := by
  induction n generalizing i with
  | zero => simp [wsum]
  | succ n ih =>
    have h1 := beWord_le hb i
    have h2 := ih (i + 2)
    simp only [wsum]
    omega

/-- The word loop in closed form: it adds the big-endian words from `i` up to the last
complete pair below `len`, modulo `2^32`. -/
theorem sum_words_eq {data : List Nat} (hb : IsBytes data) (len : Nat) :
    ∀ (fuel i sum : Nat), (len - i) / 2 ≤ fuel → sum < 2 ^ 32 →
      sum_words fuel data len i sum = (sum + wsum data i ((len - i) / 2)) % 2 ^ 32 := by
  intro fuel
  induction fuel with
  | zero =>
    intro i sum hf hs
    have h0 : (len - i) / 2 = 0 := by omega
    rw [h0]
    simp only [sum_words, wsum, Nat.add_zero]
    exact (Nat.mod_eq_of_lt hs).symm
  | succ fuel ih =>
    intro i sum hf hs
    by_cases hc : i + 1 < len
    · have hn : (len - i) / 2 = (len - (i + 2)) / 2 + 1 := by omega
      have hw : (rd data i <<< 8) ||| rd data (i + 1) = beWord data i :=
        shl8_or _ _ (rd_lt_of_isBytes hb _)
      rw [sum_words, if_pos hc, hw, ih (i + 2) _ (by omega) (Nat.mod_lt _ (by norm_num)), hn]
      simp only [wsum]
      rw [Nat.add_mod, Nat.mod_mod, ← Nat.add_mod, Nat.add_assoc]
    · have h0 : (len - i) / 2 = 0 := by omega
      rw [sum_words, if_neg hc, h0]
      simp only [wsum, Nat.add_zero]
      exact (Nat.mod_eq_of_lt hs).symm

/-- Writing a word into a zeroed, aligned slot inside the summed range adds that word. -/
theorem wsum_update {data data2 : List Nat} (c w : Nat)
    (hsame : ∀ j, j ≠ c → j ≠ c + 1 → rd data2 j = rd data j)
    (hzero : beWord data c = 0) (hnew : beWord data2 c = w) :
    ∀ (n i : Nat), i ≤ c → (c - i) % 2 = 0 → c + 1 < i + 2 * n →
      wsum data2 i n = wsum data i n + w := by
  have hout : ∀ (n i : Nat), c + 1 < i → wsum data2 i n = wsum data i n := by
    intro n
    induction n with
    | zero => intro i _; rfl
    | succ n ih =>
      intro i hi
      simp only [wsum, beWord]
      rw [ih (i + 2) (by omega), hsame i (by omega) (by omega),
        hsame (i + 1) (by omega) (by omega)]
  intro n
  induction n with
  | zero => intro i _ _ h; omega
  | succ n ih =>
    intro i hi hpar hn
    by_cases hic : i = c
    · subst hic
      simp only [wsum]
      rw [hout n (i + 2) (by omega), hzero, hnew]
      omega
    · simp only [wsum, beWord]
      rw [ih (i + 2) (by omega) (by omega) (by omega), hsame i (by omega) (by omega),
        hsame (i + 1) (by omega) (by omega)]
      omega

theorem add_odd_tail_eq (data : List Nat) (len sum : Nat) :
    add_odd_tail data len sum =
      if len % 2 = 1 then (sum + rd data (len - 1) * 256) % 2 ^ 32 else sum := by
  unfold add_odd_tail
  rw [and_1, shl8]
  by_cases h : len % 2 = 1
  · rw [if_pos h, if_pos (by omega)]
  · rw [if_neg h, if_neg (by omega)]

/-- The summing phase of both checksum functions without wrap-around. -/
theorem checksum_total_eq {data : List Nat} (hb : IsBytes data) (len init : Nat)
    (hbound : init + 65535 * (len / 2) + 65535 < 2 ^ 32) :
    add_odd_tail data len (sum_words len data len 0 init) =
      init + wsum data 0 (len / 2) + (if len % 2 = 1 then rd data (len - 1) * 256 else 0) := by
  have hw := wsum_le hb 0 (len / 2)
  have hr := rd_lt_of_isBytes hb (len - 1)
  have h1 : (len - 0) / 2 ≤ len := by omega
  have h2 : init < 2 ^ 32 := by omega
  have h3 : (init + wsum data 0 (len / 2)) % 2 ^ 32 = init + wsum data 0 (len / 2) :=
    Nat.mod_eq_of_lt (by omega)
  have h4 : (init + wsum data 0 (len / 2) + rd data (len - 1) * 256) % 2 ^ 32
      = init + wsum data 0 (len / 2) + rd data (len - 1) * 256 :=
    Nat.mod_eq_of_lt (by omega)
  rw [add_odd_tail_eq, sum_words_eq hb len len 0 init h1 h2, Nat.sub_zero, h3]
  split_ifs
  · exact h4
  · rfl

theorem fold_checksum_lt (s : Nat) : fold_checksum s < 65536 := by
  unfold fold_checksum
  exact Nat.mod_lt _ (by norm_num)

/-- Round trip through a zeroed, aligned checksum slot: store the checksum big-endian
in the slot and the checksum of the result is zero. -/
theorem checksum_slot_round_trip {data0 : List Nat} (hb : IsBytes data0) (len init slot : Nat)
    (hpar : slot % 2 = 0) (hin : slot + 2 ≤ len) (hmem : slot + 1 < data0.length)
    (hz0 : rd data0 slot = 0) (hz1 : rd data0 (slot + 1) = 0)
    (hbound : init + 65535 * (len / 2) + 131070 < 2 ^ 32) :
    fold_checksum (add_odd_tail
      ((data0.set slot
          (fold_checksum (add_odd_tail data0 len (sum_words len data0 len 0 init)) / 256)).set
        (slot + 1)
          (fold_checksum (add_odd_tail data0 len (sum_words len data0 len 0 init)) % 256))
      len
      (sum_words len
        ((data0.set slot
            (fold_checksum (add_odd_tail data0 len (sum_words len data0 len 0 init)) / 256)).set
          (slot + 1)
            (fold_checksum (add_odd_tail data0 len (sum_words len data0 len 0 init)) % 256))
        len 0 init)) = 0 := by
  have hw := wsum_le hb 0 (len / 2)
  have hr := rd_lt_of_isBytes hb (len - 1)
  have hs0 := checksum_total_eq hb len init (by omega)
  generalize add_odd_tail data0 len (sum_words len data0 len 0 init) = s0 at hs0 ⊢
  have hc := fold_checksum_lt s0
  have hb2 : IsBytes ((data0.set slot (fold_checksum s0 / 256)).set (slot + 1)
      (fold_checksum s0 % 256)) :=
    isBytes_set (isBytes_set hb _ _ (by omega)) _ _ (Nat.mod_lt _ (by norm_num))
  have hsame : ∀ j, j ≠ slot → j ≠ slot + 1 →
      rd ((data0.set slot (fold_checksum s0 / 256)).set (slot + 1) (fold_checksum s0 % 256)) j
        = rd data0 j := by
    intro j h1 h2
    rw [rd_set, if_neg (by omega), rd_set, if_neg (by omega)]
  have hnew : beWord
      ((data0.set slot (fold_checksum s0 / 256)).set (slot + 1) (fold_checksum s0 % 256)) slot
        = fold_checksum s0 := by
    unfold beWord
    rw [rd_set, if_neg (by omega), rd_set, if_pos ⟨rfl, by omega⟩, rd_set,
      if_pos ⟨rfl, by simpa using hmem⟩]
    omega
  have hzero : beWord data0 slot = 0 := by
    unfold beWord
    rw [hz0, hz1]
  have hupd := wsum_update slot (fold_checksum s0) hsame hzero hnew (len / 2) 0
    (Nat.zero_le _) (by omega) (by omega)
  rw [checksum_total_eq hb2 len init (by omega), hupd]
  have htail : rd ((data0.set slot (fold_checksum s0 / 256)).set (slot + 1)
      (fold_checksum s0 % 256)) (len - 1) = rd data0 (len - 1) ∨ len % 2 = 0 := by
    by_cases hp : len % 2 = 0
    · exact Or.inr hp
    · exact Or.inl (hsame _ (by omega) (by omega))
  have hsum : init + (wsum data0 0 (len / 2) + fold_checksum s0) +
      (if len % 2 = 1 then
        rd ((data0.set slot (fold_checksum s0 / 256)).set (slot + 1) (fold_checksum s0 % 256))
          (len - 1) * 256 else 0) = s0 + fold_checksum s0 := by
    rcases htail with ht | ht
    · rw [ht]
      split_ifs at hs0 ⊢ <;> omega
    · have hodd : ¬ len % 2 = 1 := by omega
      rw [if_neg hodd] at hs0 ⊢
      omega
  rw [hsum]
  exact fold_checksum_cancel s0 (by split_ifs at hs0 <;> omega)

/-- C8: IPv4 checksum round trip.  For a header `H` of `len` bytes, `20 <= len <= 60`:
zero bytes 10..11, compute the checksum `c`, write `c` big-endian into bytes 10..11;
`compute_ipv4_checksum` of the result is 0. -/
theorem ipv4_checksum_round_trip (H : List Nat) (len : Nat) (hb : IsBytes H)
    (hlen : H.length = len) (h20 : 20 ≤ len) (h60 : len ≤ 60) :
    compute_ipv4_checksum
      ((((H.set 10 0).set 11 0).set 10
          (compute_ipv4_checksum ((H.set 10 0).set 11 0) len / 256)).set 11
        (compute_ipv4_checksum ((H.set 10 0).set 11 0) len % 256)) len = 0 := by
  have hb0 : IsBytes ((H.set 10 0).set 11 0) :=
    isBytes_set (isBytes_set hb _ _ (by norm_num)) _ _ (by norm_num)
  have hz0 : rd ((H.set 10 0).set 11 0) 10 = 0 := by
    rw [rd_set, if_neg (by omega), rd_set, if_pos ⟨rfl, by omega⟩]
  have hz1 : rd ((H.set 10 0).set 11 0) (10 + 1) = 0 := by
    rw [rd_set, if_pos ⟨rfl, by simp only [List.length_set]; omega⟩]
  exact checksum_slot_round_trip hb0 len 0 10 (by norm_num) (by omega)
    (by simp only [List.length_set]; omega) hz0 hz1 (by omega)

theorem compute_tcp_checksum_eq (ip tcp payload : List Nat) (payloadLen tcpHeaderLen : Nat) :
    compute_tcp_checksum ip tcp payload payloadLen tcpHeaderLen =
      fold_checksum (add_odd_tail tcp (tcpHeaderLen + payloadLen)
        (sum_words (tcpHeaderLen + payloadLen) tcp (tcpHeaderLen + payloadLen) 0
          (pseudo_header_sum ip (tcpHeaderLen + payloadLen)))) := rfl

theorem htons_le (x : Nat) : htons x ≤ 65535 := by
  unfold htons
  omega

theorem pseudo_header_sum_le (ip : List Nat) (segLen : Nat) :
    pseudo_header_sum ip segLen ≤ 393210 := by
  unfold pseudo_header_sum
  simp only [and_FFFF]
  have h1 := htons_le IPPROTO_TCP
  have h2 := htons_le (segLen % 2 ^ 16)
  omega

/-- C9: TCP checksum round trip.  For any IPv4 header and any contiguous TCP segment of
`tcpHeaderLen >= 20` header bytes and `payloadLen` payload bytes with
`tcpHeaderLen + payloadLen <= 65535` (even or odd): zero bytes 16..17, compute the
checksum `c`, write `c` big-endian into bytes 16..17; `compute_tcp_checksum` of the
result is 0. -/
theorem tcp_checksum_round_trip (ip seg : List Nat) (tcpHeaderLen payloadLen : Nat)
    (hseg : IsBytes seg) (hlen : seg.length = tcpHeaderLen + payloadLen)
    (h20 : 20 ≤ tcpHeaderLen) (hmax : tcpHeaderLen + payloadLen ≤ 65535) :
    compute_tcp_checksum ip
      ((((seg.set 16 0).set 17 0).set 16
          (compute_tcp_checksum ip ((seg.set 16 0).set 17 0)
            (((seg.set 16 0).set 17 0).drop tcpHeaderLen) payloadLen tcpHeaderLen / 256)).set 17
        (compute_tcp_checksum ip ((seg.set 16 0).set 17 0)
            (((seg.set 16 0).set 17 0).drop tcpHeaderLen) payloadLen tcpHeaderLen % 256))
      (((((seg.set 16 0).set 17 0).set 16
          (compute_tcp_checksum ip ((seg.set 16 0).set 17 0)
            (((seg.set 16 0).set 17 0).drop tcpHeaderLen) payloadLen tcpHeaderLen / 256)).set 17
        (compute_tcp_checksum ip ((seg.set 16 0).set 17 0)
            (((seg.set 16 0).set 17 0).drop tcpHeaderLen) payloadLen tcpHeaderLen % 256)).drop
        tcpHeaderLen)
      payloadLen tcpHeaderLen = 0 := by
  have hb0 : IsBytes ((seg.set 16 0).set 17 0) :=
    isBytes_set (isBytes_set hseg _ _ (by norm_num)) _ _ (by norm_num)
  have hz0 : rd ((seg.set 16 0).set 17 0) 16 = 0 := by
    rw [rd_set, if_neg (by omega), rd_set, if_pos ⟨rfl, by omega⟩]
  have hz1 : rd ((seg.set 16 0).set 17 0) (16 + 1) = 0 := by
    rw [rd_set, if_pos ⟨rfl, by simp only [List.length_set]; omega⟩]
  have hp := pseudo_header_sum_le ip (tcpHeaderLen + payloadLen)
  simp only [compute_tcp_checksum_eq]
  exact checksum_slot_round_trip hb0 (tcpHeaderLen + payloadLen)
    (pseudo_header_sum ip (tcpHeaderLen + payloadLen)) 16 (by norm_num) (by omega)
    (by simp only [List.length_set]; omega) hz0 hz1 (by omega)

/-! ## Session tracker -/

theorem mem_session_erase (s : List SessionKey) (key k : SessionKey) :
    k ∈ session_erase s key ↔ k ∈ s ∧ k ≠ key := by
  simp [session_erase]

theorem session_insert_snd (s : List SessionKey) (key : SessionKey) :
    (session_insert s key).2 = decide (key ∉ s) := by
  unfold session_insert
  split_ifs with h <;> simp [h]

theorem mem_session_insert (s : List SessionKey) (key k : SessionKey) :
    k ∈ (session_insert s key).1 ↔ k = key ∨ k ∈ s := by
  unfold session_insert
  split_ifs with h
  · constructor
    · exact Or.inr
    · rintro (h1 | h1)
      · exact h1 ▸ h
      · exact h1
  · simp

theorem tracker_step_snd (s : List SessionKey) (key : SessionKey) (flags : Nat) :
    (tracker_step s key flags).2 = decide (key ∉ s) :=
  session_insert_snd s key

theorem mem_tracker_step (s : List SessionKey) (key k : SessionKey) (flags : Nat) :
    k ∈ (tracker_step s key flags).1 ↔
      if k = key then session_done flags = false else k ∈ s := by
  unfold tracker_step
  by_cases hk : k = key
  · subst hk
    by_cases hd : session_done flags = true
    · simp [hd, mem_session_erase]
    · simp [hd, mem_session_insert]
  · by_cases hd : session_done flags = true
    · simp [hd, hk, mem_session_erase, mem_session_insert]
    · simp [hd, hk, mem_session_insert]

/-- Membership after a run is decided by the last packet of the key. -/
theorem mem_tracker_run (pkts : List (SessionKey × Nat)) :
    ∀ (s : List SessionKey) (k : SessionKey),
      k ∈ (tracker_run s pkts).1 ↔
        match last_flags k pkts with
        | some f => session_done f = false
        | none => k ∈ s := by
  induction pkts with
  | nil => intro s k; simp [tracker_run, last_flags]
  | cons p rest ih =>
    intro s k
    simp only [tracker_run, last_flags]
    rw [ih]
    cases hl : last_flags k rest with
    | some f => simp
    | none =>
      simp only [mem_tracker_step]
      by_cases hk : p.1 = k
      · simp [hk]
      · have hk2 : ¬ k = p.1 := fun h => hk h.symm
        simp [hk, hk2]

theorem last_flags_append_cons (k : SessionKey) (a b : List (SessionKey × Nat))
    (q : SessionKey × Nat) (hq : q.1 = k) (hb : ∀ r ∈ b, r.1 ≠ k) :
    last_flags k (a ++ q :: b) = some q.2 := by
  have hbn : last_flags k b = none := by
    induction b with
    | nil => rfl
    | cons r b ih =>
      simp only [last_flags]
      rw [ih (fun x hx => hb x (List.mem_cons_of_mem _ hx))]
      simp [hb r (List.mem_cons_self _ _)]
  have hqb : last_flags k (q :: b) = some q.2 := by
    simp [last_flags, hbn, hq]
  induction a with
  | nil => exact hqb
  | cons r a ih =>
    rw [List.cons_append, last_flags, ih]

theorem last_flags_eq_none (k : SessionKey) (pkts : List (SessionKey × Nat)) :
    last_flags k pkts = none ↔ ∀ r ∈ pkts, r.1 ≠ k := by
  induction pkts with
  | nil => simp [last_flags]
  | cons p rest ih =>
    simp only [last_flags]
    cases hl : last_flags k rest with
    | some f =>
      simp only [reduceCtorEq, false_iff]
      intro h
      have := ih.2 (fun r hr => h r (List.mem_cons_of_mem _ hr))
      rw [hl] at this
      cases this
    | none =>
      have hr := ih.1 hl
      by_cases hk : p.1 = k
      · simp [hk]
      · simp only [hk, if_false, true_iff]
        intro r hmem
        rcases List.mem_cons.1 hmem with h | h
        · rw [h]; exact hk
        · exact hr r h

theorem last_flags_eq_some (k : SessionKey) (pkts : List (SessionKey × Nat)) (f : Nat) :
    last_flags k pkts = some f →
      ∃ a q b, pkts = a ++ q :: b ∧ q.1 = k ∧ (∀ r ∈ b, r.1 ≠ k) ∧ q.2 = f := by
  induction pkts with
  | nil => intro h; simp [last_flags] at h
  | cons p rest ih =>
    intro h
    simp only [last_flags] at h
    cases hl : last_flags k rest with
    | some g =>
      rw [hl] at h
      simp only [Option.some.injEq] at h
      obtain ⟨a, q, b, e, h1, h2, h3⟩ := ih (h ▸ hl)
      exact ⟨p :: a, q, b, by rw [e]; rfl, h1, h2, h3⟩
    | none =>
      rw [hl] at h
      by_cases hk : p.1 = k
      · simp only [hk, if_true, Option.some.injEq] at h
        exact ⟨[], p, rest, rfl, hk, (last_flags_eq_none k rest).1 hl, h⟩
      · simp [hk] at h

theorem tracker_run_append (a b : List (SessionKey × Nat)) :
    ∀ s : List SessionKey,
      tracker_run s (a ++ b) =
        ((tracker_run (tracker_run s a).1 b).1,
          (tracker_run s a).2 ++ (tracker_run (tracker_run s a).1 b).2) := by
  induction a with
  | nil => intro s; simp [tracker_run]
  | cons p a ih =>
    intro s
    rw [List.cons_append, tracker_run, tracker_run, ih]
    rfl

theorem tracker_run_length (pkts : List (SessionKey × Nat)) :
    ∀ s : List SessionKey, (tracker_run s pkts).2.length = pkts.length := by
  induction pkts with
  | nil => intro s; rfl
  | cons p rest ih => intro s; simp [tracker_run, ih]

theorem session_done_iff (flags : Nat) :
    session_done flags = true ↔ flags % 2 = 1 ∨ flags / 4 % 2 = 1 := by
  have h4 : flags &&& 4 ≠ 0 ↔ flags / 4 % 2 = 1 := by
    have ht : flags.testBit 2 = decide (flags / 4 % 2 = 1) := Nat.testBit_to_div_mod
    constructor
    · intro h
      by_contra hc
      apply h
      apply Nat.eq_of_testBit_eq
      intro i
      rw [Nat.testBit_and, show (4 : Nat) = 2 ^ 2 from rfl, Nat.testBit_two_pow, Nat.zero_testBit]
      by_cases hi : 2 = i
      · subst hi
        rw [ht]
        simp [hc]
      · simp [hi]
    · intro h hz
      have h2 : (flags &&& 4).testBit 2 = true := by
        rw [Nat.testBit_and, ht, show (4 : Nat) = 2 ^ 2 from rfl, Nat.testBit_two_pow]
        simp [h]
      rw [hz, Nat.zero_testBit] at h2
      cases h2
  have h1 : flags &&& 1 ≠ 0 ↔ flags % 2 = 1 := by
    rw [Nat.and_one_is_mod]
    omega
  unfold session_done
  simp only [decide_eq_true_eq]
  rw [h1, h4]

/-- C5: starting from the empty session set, with every packet first inserted and then
erased when its flags include FIN (`0x001`) or RST (`0x004`): a packet is first-seen iff
no earlier packet has its 4-tuple or the most recent earlier one with its 4-tuple carried
FIN or RST; after any sequence a key is in the set iff some packet of that 4-tuple was
seen and the last one carried neither FIN nor RST; and `[A, A, B, A(FIN), A, B(RST), B]`
gives `[true, false, true, false, true, false, true]`. -/
theorem first_seen_semantics :
    (∀ (pre post : List (SessionKey × Nat)) (p : SessionKey × Nat),
      (tracker_run [] (pre ++ p :: post)).2.getD pre.length false = true ↔
        ((∀ q ∈ pre, q.1 ≠ p.1) ∨
          ∃ a q b, pre = a ++ q :: b ∧ q.1 = p.1 ∧ (∀ r ∈ b, r.1 ≠ p.1) ∧
            (q.2 % 2 = 1 ∨ q.2 / 4 % 2 = 1))) ∧
    (∀ (pkts : List (SessionKey × Nat)) (k : SessionKey),
      k ∈ (tracker_run [] pkts).1 ↔
        ∃ a q b, pkts = a ++ q :: b ∧ q.1 = k ∧ (∀ r ∈ b, r.1 ≠ k) ∧
          ¬ (q.2 % 2 = 1 ∨ q.2 / 4 % 2 = 1)) ∧
    (tracker_run [] [(keyA, 0x5002), (keyA, 0x5010), (keyB, 0x5002), (keyA, 0x5011),
        (keyA, 0x5002), (keyB, 0x5004), (keyB, 0x5002)]).2
      = [true, false, true, false, true, false, true] := by
  refine ⟨?_, ?_, by decide⟩
  · intro pre post p
    rw [tracker_run_append, List.getD_append_right _ _ _ _
      (by rw [tracker_run_length]), tracker_run_length, Nat.sub_self]
    simp only [tracker_run, List.getD_cons_zero, tracker_step_snd, decide_eq_true_eq]
    rw [mem_tracker_run]
    cases hl : last_flags p.1 pre with
    | none =>
      simp only [List.not_mem_nil, not_false_eq_true, true_iff]
      exact Or.inl ((last_flags_eq_none _ _).1 hl)
    | some f =>
      simp only [Bool.not_eq_false]
      rw [session_done_iff]
      obtain ⟨a, q, b, e, h1, h2, h3⟩ := last_flags_eq_some _ _ _ hl
      constructor
      · intro hd
        exact Or.inr ⟨a, q, b, e, h1, h2, h3 ▸ hd⟩
      · rintro (hno | ⟨a2, q2, b2, e2, g1, g2, g3⟩)
        · exact absurd h1 (hno q (by rw [e]; simp))
        · have hx := last_flags_append_cons p.1 a2 b2 q2 g1 g2
          rw [← e2, hl] at hx
          simp only [Option.some.injEq] at hx
          rw [hx]
          exact g3
  · intro pkts k
    rw [mem_tracker_run]
    cases hl : last_flags k pkts with
    | none =>
      simp only [List.not_mem_nil, false_iff]
      rintro ⟨a, q, b, e, h1, _, _⟩
      exact (last_flags_eq_none _ _).1 hl q (by rw [e]; simp) h1
    | some f =>
      simp only
      obtain ⟨a, q, b, e, h1, h2, h3⟩ := last_flags_eq_some _ _ _ hl
      constructor
      · intro hd
        refine ⟨a, q, b, e, h1, h2, ?_⟩
        rw [← session_done_iff, h3, hd]
        simp
      · rintro ⟨a2, q2, b2, e2, g1, g2, g3⟩
        have hx := last_flags_append_cons k a2 b2 q2 g1 g2
        rw [← e2, hl] at hx
        simp only [Option.some.injEq] at hx
        rw [← session_done_iff] at g3
        rw [hx]
        simpa using g3

/-! ## Worker loop -/

/-- One accepted iteration of the loop, unfolded. -/
theorem worker_loop_body_packet (sessions : List SessionKey) (addr : Nat) (data : List Nat)
    (rng : RngDraws) (rest : List RecvEvent) (ipHeaderLen tcpHeaderLen : Nat)
    (hne : data.length ≠ 0)
    (hparse : parse_tcp_packet data data.length = some (ipHeaderLen, tcpHeaderLen)) :
    worker_loop_body sessions (RecvEvent.packet addr data rng :: rest) =
      ((worker_loop_body
          (tracker_step sessions (packet_key_flags data ipHeaderLen).1
            (packet_key_flags data ipHeaderLen).2).1 rest).1,
        (if session_key data (data.drop ipHeaderLen) ∈ sessions then []
          else [Send.mk (build_decoy data (data.drop ipHeaderLen) ipHeaderLen tcpHeaderLen rng)
            addr]) ++ [Send.mk data addr] ++
        (worker_loop_body
          (tracker_step sessions (packet_key_flags data ipHeaderLen).1
            (packet_key_flags data ipHeaderLen).2).1 rest).2) := by
  rw [worker_loop_body, if_neg hne, hparse]
  simp only [session_insert_snd, decide_eq_true_eq]
  by_cases hk : session_key data (data.drop ipHeaderLen) ∈ sessions
  · simp only [hk, not_true_eq_false, if_false, if_true]
    rfl
  · simp only [hk, not_false_eq_true, if_true, if_false]
    rfl

theorem worker_loop_body_count (evs : List RecvEvent) :
    ∀ sessions : List SessionKey, (∀ ev ∈ evs, ev.Accepted) →
      (worker_loop_body sessions evs).2.length =
        evs.length + ((tracker_run sessions (evs.map RecvEvent.keyFlags)).2.count true) := by
  induction evs with
  | nil => intro s _; rfl
  | cons ev rest ih =>
    intro s hacc
    have hrest : ∀ e ∈ rest, e.Accepted := fun e he => hacc e (List.mem_cons_of_mem _ he)
    have hev := hacc ev (List.mem_cons_self _ _)
    cases ev with
    | failed b => exact absurd hev (by simp [RecvEvent.Accepted])
    | packet addr data rng =>
      obtain ⟨hne, hsome⟩ := hev
      obtain ⟨⟨ihl, thl⟩, hparse⟩ := Option.isSome_iff_exists.1 hsome
      rw [worker_loop_body_packet s addr data rng rest ihl thl hne hparse]
      have hkf : RecvEvent.keyFlags (RecvEvent.packet addr data rng) = packet_key_flags data ihl := by
        simp only [RecvEvent.keyFlags, hparse, Option.getD_some]
      rw [List.map_cons, hkf, tracker_run]
      simp only [List.length_append, List.length_cons, List.length_nil, ih _ hrest,
        tracker_step_snd]
      by_cases hk : session_key data (data.drop ihl) ∈ s
      · have hk2 : (packet_key_flags data ihl).1 ∈ s := hk
        simp only [hk, hk2, if_true, List.length_nil, not_true_eq_false, decide_False]
        rw [List.count_cons_of_ne (by decide)]
        omega
      · have hk2 : ¬ (packet_key_flags data ihl).1 ∈ s := hk
        simp only [hk, hk2, if_false, List.length_cons, List.length_nil, not_false_eq_true,
          decide_True]
        rw [List.count_cons_self]
        omega

/-- C4: in an iteration whose received packet is non-empty and accepted by the parser,
the loop issues the decoy built from that packet, with the received address record, iff
the packet's key was not yet in the session set, and then the genuine packet with the
received bytes and address, before the sends of the later iterations; so over `n` such
packets the number of sends is `n` plus the number of first-seen packets: 2 for one SYN,
4 for the same SYN three times, 6 for SYN, ACK, FIN, SYN on one flow. -/
theorem worker_loop_sends :
    (∀ (sessions : List SessionKey) (addr : Nat) (data : List Nat) (rng : RngDraws)
        (rest : List RecvEvent) (ipHeaderLen tcpHeaderLen : Nat),
      data.length ≠ 0 →
      parse_tcp_packet data data.length = some (ipHeaderLen, tcpHeaderLen) →
      (worker_loop_body sessions (RecvEvent.packet addr data rng :: rest)).2 =
        (if session_key data (data.drop ipHeaderLen) ∈ sessions then []
          else [Send.mk (build_decoy data (data.drop ipHeaderLen) ipHeaderLen tcpHeaderLen rng)
            addr]) ++ [Send.mk data addr] ++
        (worker_loop_body
          (remove_session_if_done (data.drop ipHeaderLen)
            (session_key data (data.drop ipHeaderLen))
            (session_insert sessions (session_key data (data.drop ipHeaderLen))).1) rest).2) ∧
    (∀ evs : List RecvEvent, (∀ ev ∈ evs, ev.Accepted) →
      (worker_loop_body [] evs).2.length =
        evs.length + ((tracker_run [] (evs.map RecvEvent.keyFlags)).2.count true)) ∧
    (worker_loop_body [] [RecvEvent.packet 7 (samplePacket 0x02) sampleRng]).2 =
      [Send.mk (build_decoy (samplePacket 0x02) ((samplePacket 0x02).drop 20) 20 20 sampleRng) 7,
        Send.mk (samplePacket 0x02) 7] ∧
    (worker_loop_body [] [RecvEvent.packet 7 (samplePacket 0x02) sampleRng,
      RecvEvent.packet 7 (samplePacket 0x02) sampleRng,
      RecvEvent.packet 7 (samplePacket 0x02) sampleRng]).2.length = 4 ∧
    (worker_loop_body [] [RecvEvent.packet 7 (samplePacket 0x02) sampleRng,
      RecvEvent.packet 7 (samplePacket 0x10) sampleRng,
      RecvEvent.packet 7 (samplePacket 0x11) sampleRng,
      RecvEvent.packet 7 (samplePacket 0x02) sampleRng]).2.length = 6 := by
  refine ⟨?_, fun evs h => worker_loop_body_count evs [] h, by decide, by decide, by decide⟩
  intro sessions addr data rng rest ihl thl hne hparse
  rw [worker_loop_body_packet sessions addr data rng rest ihl thl hne hparse]
  rfl

/-! ## Evaluations and instances -/

/-- Witness for C1: the decoy of the 40-byte SYN sample, built with an out-of-range
generator outcome for the payload size, has a payload length in `[16, 32]` and TTL 5. -/
theorem build_decoy_structure_witness :
    (IsBytes (samplePacket 0x02) ∧
      parse_tcp_packet (samplePacket 0x02) 40 = some (20, 20)) ∧
    ((build_decoy (samplePacket 0x02) ((samplePacket 0x02).drop 20) 20 20
        { sampleRng with junkSize := 1000 }).length
      = 20 + 20 + uniform_int_distribution 16 32 1000 ∧
      16 ≤ uniform_int_distribution 16 32 1000 ∧ uniform_int_distribution 16 32 1000 ≤ 32) ∧
    rd (build_decoy (samplePacket 0x02) ((samplePacket 0x02).drop 20) 20 20
        { sampleRng with junkSize := 1000 }) ipTtl = 5 :=
  ⟨by decide,
    (build_decoy_structure (samplePacket 0x02) 40 20 20 { sampleRng with junkSize := 1000 }
      (by decide) (by decide)).1,
    (build_decoy_structure (samplePacket 0x02) 40 20 20 { sampleRng with junkSize := 1000 }
      (by decide) (by decide)).2.2.1⟩

/-- C2, evaluated: for the accepted 40-byte SYN sample and in-range draws the decoy's
IPv4 header does not verify.  `compute_ipv4_checksum` over its 20 bytes gives 41820, not
0, and its ten big-endian words fold to 23715, not `0xFFFF`: bytes 10..11 read `0xBC5F`
on the wire, the little-endian image of the checksum `0x5FBC` of the header with a
zeroed field. -/
theorem build_decoy_ipv4_checksum_invalid :
    IsBytes (samplePacket 0x02) ∧
    parse_tcp_packet (samplePacket 0x02) 40 = some (20, 20) ∧ sampleRng.InRange ∧
    compute_ipv4_checksum
      (build_decoy (samplePacket 0x02) ((samplePacket 0x02).drop 20) 20 20 sampleRng) 20
      = 41820 ∧
    fold_loop 32
      (wsum (build_decoy (samplePacket 0x02) ((samplePacket 0x02).drop 20) 20 20 sampleRng) 0 10)
      = 23715 ∧
    beWord (build_decoy (samplePacket 0x02) ((samplePacket 0x02).drop 20) 20 20 sampleRng)
      ipChecksum = 0xBC5F ∧
    compute_ipv4_checksum
      (store16 (build_decoy (samplePacket 0x02) ((samplePacket 0x02).drop 20) 20 20 sampleRng)
        ipChecksum 0) 20 = 0x5FBC := by
  decide

/-- C3, evaluated: for the same input the decoy's TCP checksum does not verify.  The
pseudo-header and segment words fold to 12495, not `0xFFFF`: bytes 16..17 of the TCP
header read `0xAE64` on the wire, where the sum with a zeroed field calls for `0x7D95`. -/
theorem build_decoy_tcp_checksum_invalid :
    IsBytes (samplePacket 0x02) ∧
    parse_tcp_packet (samplePacket 0x02) 40 = some (20, 20) ∧ sampleRng.InRange ∧
    fold_loop 32 (tcp_wire_sum
      (build_decoy (samplePacket 0x02) ((samplePacket 0x02).drop 20) 20 20 sampleRng) 20)
      = 12495 ∧
    beWord (build_decoy (samplePacket 0x02) ((samplePacket 0x02).drop 20) 20 20 sampleRng)
      (20 + tcpChecksum) = 0xAE64 ∧
    65535 - fold_loop 32 (tcp_wire_sum
      (store16 (build_decoy (samplePacket 0x02) ((samplePacket 0x02).drop 20) 20 20 sampleRng)
        (20 + tcpChecksum) 0) 20) = 0x7D95 := by
  decide

/-- Witness for C6: the 50-byte sample is accepted with both header lengths 20, and the
rejection criterion holds of it. -/
theorem parse_tcp_packet_rejects_iff_witness :
    IsBytes payloadPacket ∧
    ∀ ipHeaderLen tcpHeaderLen,
      parse_tcp_packet payloadPacket 50 = some (ipHeaderLen, tcpHeaderLen) →
        ipHeaderLen = rd payloadPacket 0 % 16 * 4 ∧
        tcpHeaderLen = beWord payloadPacket (rd payloadPacket 0 % 16 * 4 + 12) / 4096 * 4 :=
  ⟨by decide, (parse_tcp_packet_rejects_iff payloadPacket 50 (by decide)).2.1⟩

/-- C7 as stated fails: the 50-byte sample is a valid packet whose total-length field is
50, yet its 45-byte prefix, which still holds both headers, is accepted. -/
theorem parse_tcp_packet_prefix_counterexample :
    ¬ (∀ (packet : List Nat) (k : Nat), IsBytes packet → rd packet 0 / 16 = 4 →
        5 ≤ rd packet 0 % 16 → 5 ≤ beWord packet (rd packet 0 % 16 * 4 + 12) / 4096 →
        beWord packet ipTotalLength = packet.length → k < beWord packet ipTotalLength →
        parse_tcp_packet (packet.take k) k = none) := by
  intro h
  have h45 := h payloadPacket 45 (by decide) (by decide) (by decide) (by decide) (by decide)
    (by decide)
  revert h45
  decide

/-- Witness for C7 as amended, on the 50-byte sample: the 39-byte prefix is rejected and
the 45-byte prefix is accepted. -/
theorem parse_tcp_packet_on_prefixes_witness :
    (IsBytes payloadPacket ∧ rd payloadPacket 0 / 16 = 4 ∧ 5 ≤ rd payloadPacket 0 % 16 ∧
      5 ≤ beWord payloadPacket (rd payloadPacket 0 % 16 * 4 + 12) / 4096) ∧
    parse_tcp_packet (payloadPacket.take 39) 39 = none ∧
    parse_tcp_packet (payloadPacket.take 45) 45 = some (20, 20) :=
  ⟨by decide,
    (parse_tcp_packet_on_prefixes payloadPacket 39 (by decide) (by decide) (by decide)
      (by decide)).1 (by decide),
    (parse_tcp_packet_on_prefixes payloadPacket 45 (by decide) (by decide) (by decide)
      (by decide)).2 (by decide) (by decide)⟩

/-- Witness for C8: the round trip on the 20-byte header of the SYN sample. -/
theorem ipv4_checksum_round_trip_witness :
    (IsBytes ((samplePacket 0x02).take 20) ∧ ((samplePacket 0x02).take 20).length = 20) ∧
    compute_ipv4_checksum
      ((((((samplePacket 0x02).take 20).set 10 0).set 11 0).set 10
          (compute_ipv4_checksum ((((samplePacket 0x02).take 20).set 10 0).set 11 0) 20 / 256)).set
        11 (compute_ipv4_checksum ((((samplePacket 0x02).take 20).set 10 0).set 11 0) 20 % 256))
      20 = 0 :=
  ⟨by decide,
    ipv4_checksum_round_trip ((samplePacket 0x02).take 20) 20 (by decide) (by decide)
      (by decide) (by decide)⟩

/-- Witness for C9: the round trip on the 30-byte segment (odd word count aside, ten
payload bytes) of the 50-byte sample. -/
theorem tcp_checksum_round_trip_witness :
    (IsBytes (payloadPacket.drop 20) ∧ (payloadPacket.drop 20).length = 20 + 10) ∧
    compute_tcp_checksum payloadPacket
      (((((payloadPacket.drop 20).set 16 0).set 17 0).set 16
          (compute_tcp_checksum payloadPacket (((payloadPacket.drop 20).set 16 0).set 17 0)
            ((((payloadPacket.drop 20).set 16 0).set 17 0).drop 20) 10 20 / 256)).set 17
        (compute_tcp_checksum payloadPacket (((payloadPacket.drop 20).set 16 0).set 17 0)
            ((((payloadPacket.drop 20).set 16 0).set 17 0).drop 20) 10 20 % 256))
      ((((((payloadPacket.drop 20).set 16 0).set 17 0).set 16
          (compute_tcp_checksum payloadPacket (((payloadPacket.drop 20).set 16 0).set 17 0)
            ((((payloadPacket.drop 20).set 16 0).set 17 0).drop 20) 10 20 / 256)).set 17
        (compute_tcp_checksum payloadPacket (((payloadPacket.drop 20).set 16 0).set 17 0)
            ((((payloadPacket.drop 20).set 16 0).set 17 0).drop 20) 10 20 % 256)).drop 20)
      10 20 = 0 :=
  ⟨by decide,
    tcp_checksum_round_trip payloadPacket (payloadPacket.drop 20) 20 10 (by decide) (by decide)
      (by decide) (by decide)⟩

/-- C10, evaluated: with a library that loads and exports every entry point except
`WinDivertShutdown`, the first start from the initial state returns false and starts no
worker, and leaves `g_api.open` set; the second start, with the same arguments and the
same library, returns true and starts a worker although `shutdown` is still
unresolved. -/
theorem start_after_failed_load :
    libNoShutdown.hasShutdown = false ∧
    (start_ttl_phantom_injector {} (some "10.0.0.1") 443 libNoShutdown).1 = false ∧
    (start_ttl_phantom_injector {} (some "10.0.0.1") 443 libNoShutdown).2.spawned = [] ∧
    (start_ttl_phantom_injector {} (some "10.0.0.1") 443 libNoShutdown).2.g_api.open_ = true ∧
    (start_ttl_phantom_injector
      (start_ttl_phantom_injector {} (some "10.0.0.1") 443 libNoShutdown).2
      (some "10.0.0.1") 443 libNoShutdown).1 = true ∧
    (start_ttl_phantom_injector
      (start_ttl_phantom_injector {} (some "10.0.0.1") 443 libNoShutdown).2
      (some "10.0.0.1") 443 libNoShutdown).2.spawned = [⟨"10.0.0.1", 443⟩] ∧
    (start_ttl_phantom_injector
      (start_ttl_phantom_injector {} (some "10.0.0.1") 443 libNoShutdown).2
      (some "10.0.0.1") 443 libNoShutdown).2.g_api.shutdown = false := by
  decide

/-! ## Lifecycle -/

theorem stop_ttl_phantom_injector_stopped (st : EngineState) :
    Stopped (stop_ttl_phantom_injector st) := by
  unfold Stopped stop_ttl_phantom_injector worker_exit worker_publish_handle
  cases hh : st.g_handle <;> cases hw : st.g_worker <;> cases hs : st.g_api.shutdown <;>
    cases hc : st.g_api.close <;> cases ho : st.worker_opened <;>
    cases hr : st.open_result <;> simp [hh, hw, hs, hc, ho, hr]

theorem stop_ttl_phantom_injector_of_stopped (st : EngineState) (h : Stopped st) :
    stop_ttl_phantom_injector st = st := by
  obtain ⟨h1, h2, h3, h4⟩ := h
  cases st
  simp only at h1 h2 h3 h4
  subst h1 h2 h3 h4
  rfl

/-- C11: for every engine state, at the return of `stop_ttl_phantom_injector` the stop
flag is true, the driver handle is the invalid sentinel, the session set is empty and the
worker is not joinable; a second stop right after leaves the state unchanged and issues no
driver call; and in the sequence stop; stop; start; start; stop, with any arguments, any
library, any answer of the driver to the workers' open calls and any progress of the
started workers (none included), the four conditions hold at each stop return.  Two runs
are evaluated: one whose workers have opened handles 1 and 2 and met a SYN each, and one
whose workers have not run yet when they are joined. -/
theorem stop_postconditions (st : EngineState) :
    ((stop_ttl_phantom_injector st).g_stop = true ∧
      (stop_ttl_phantom_injector st).g_handle = none ∧
      (stop_ttl_phantom_injector st).g_sessions = [] ∧
      (stop_ttl_phantom_injector st).g_worker = none) ∧
    stop_ttl_phantom_injector (stop_ttl_phantom_injector st) = stop_ttl_phantom_injector st ∧
    (stop_ttl_phantom_injector (stop_ttl_phantom_injector st)).calls
      = (stop_ttl_phantom_injector st).calls ∧
    (∀ (ip1 : Option String) (port1 : Nat) (lib1 : Library) (h1 : Option Nat)
        (p1 : Option (List RecvEvent)) (ip2 : Option String) (port2 : Nat) (lib2 : Library)
        (h2 : Option Nat) (p2 : Option (List RecvEvent)),
      Stopped (stop_stop_start_start_stop st ip1 port1 lib1 h1 p1 ip2 port2 lib2 h2 p2).1 ∧
      Stopped
        (stop_stop_start_start_stop st ip1 port1 lib1 h1 p1 ip2 port2 lib2 h2 p2).2.1 ∧
      Stopped
        (stop_stop_start_start_stop st ip1 port1 lib1 h1 p1 ip2 port2 lib2 h2 p2).2.2) ∧
    (stop_stop_start_start_stop {} (some "10.0.0.1") 443 libFull (some 1)
        (some [RecvEvent.packet 7 (samplePacket 0x02) sampleRng])
        (some "10.0.0.1") 443 libFull (some 2)
        (some [RecvEvent.packet 7 (samplePacket 0x02) sampleRng])).2.2
      = { g_api := { open_ := true, recv := true, send := true, shutdown := true,
                     close := true },
          g_windivert_module := true, g_handle := none, g_stop := true, g_worker := none,
          g_sessions := [],
          calls := [DriverCall.shutdown 1, DriverCall.close 1, DriverCall.shutdown 2,
            DriverCall.close 2],
          spawned := [⟨"10.0.0.1", 443⟩, ⟨"10.0.0.1", 443⟩],
          worker_opened := true, open_result := some 2 } ∧
    (stop_stop_start_start_stop {} (some "10.0.0.1") 443 libFull (some 1) none
        (some "10.0.0.1") 443 libFull (some 2) none).2.2
      = { g_api := { open_ := true, recv := true, send := true, shutdown := true,
                     close := true },
          g_windivert_module := true, g_handle := none, g_stop := true, g_worker := none,
          g_sessions := [],
          calls := [DriverCall.close 1, DriverCall.close 2],
          spawned := [⟨"10.0.0.1", 443⟩, ⟨"10.0.0.1", 443⟩],
          worker_opened := true, open_result := some 2 } ∧
    (stop_ttl_phantom_injector
        { (start_ttl_phantom_injector {} (some "10.0.0.1") 443 libFull).2 with
          open_result := some 1 }).calls = [DriverCall.close 1] := by
  have hs := stop_ttl_phantom_injector_stopped st
  have hid := stop_ttl_phantom_injector_of_stopped _ hs
  refine ⟨hs, hid, by rw [hid], ?_, by decide, by decide, by decide⟩
  intro ip1 port1 lib1 h1 p1 ip2 port2 lib2 h2 p2
  exact ⟨hs, stop_ttl_phantom_injector_stopped _, stop_ttl_phantom_injector_stopped _⟩

end TtlPhantom
